import Mathlib

/-!
Verification of the `KinesisVideo` wrapper (src/kinesisvideo.py).

The wrapper is a facade over three boto3 service surfaces: the control-plane
service `kinesisvideo` and the two data-plane services `kinesis-video-media`
and `kinesis-video-archived-media`.  Its whole behaviour is a dynamic
dispatcher (`__getattr__` / `_api_call`) driving four `functools.lru_cache`
memoized helpers:

* `_get_arn_for_stream_name`        (stream name -> stream ARN, via
  `describe_stream`),
* `_get_endpoint_for_stream_method` ((ARN, method) -> endpoint, via
  `get_data_endpoint` with the method name upper-cased),
* `_get_client_for_service`         ((service, endpoint override) -> client),
* `_get_client_by_arguments`        ((method, StreamName?, StreamARN?) ->
  client, with the XOR validation of the two reserved kwargs).

The embedding below models the facade instance as an explicit state
(`KVState`) holding the `_methods` catalog dict, the four lru caches and an
event trace of observable effects (client constructions and forwarded network
calls).  `functools.lru_cache()` is used with its default `maxsize=128`, so
each cache is modelled as a bounded LRU association list: a hit moves the
entry to the most-recently-used position, a miss inserts at that position and
drops the least-recently-used entry once 128 entries are exceeded.
External collaborators (botocore method catalogs, the network) are an
explicit environment `Env`.  The recursion `_get_arn_for_stream_name ->
self.describe_stream -> _api_call` is made structural with a fuel parameter;
fuel only ever bounds the nesting depth of this dynamic dispatch.
-/

set_option maxHeartbeats 4000000
set_option maxRecDepth 10000

namespace KinesisVideo

/-- Keyword arguments of one call: an association list from argument name to
string value, mirroring a Python kwargs dict whose values are strings. -/
abbrev Kwargs := List (String × String)

/-- The two fields of upstream responses that the wrapper itself reads:
`response['StreamInfo']['StreamARN']` of a `describe_stream` response and
`response['DataEndpoint']` of a `get_data_endpoint` response. -/
structure Response where
  streamArn : String
  dataEndpoint : String
deriving DecidableEq

/-- External collaborators: `baseMethods service` is the
`meta.method_to_api_mapping.keys()` operation list advertised by a botocore
client of `service` (before any patching), and `respond method kwargs` is the
network's response to a forwarded call. -/
structure Env where
  baseMethods : String → List String
  respond : String → Kwargs → Response

/-- A boto3 client as the wrapper observes it: an identity (construction
counter), the service it was created for, the endpoint override it is bound
to (`none` when constructed without an `endpoint_url` argument), and whether
the `_patch_kinesis_video_media` augmentation was applied. -/
structure Client where
  id : Nat
  service : String
  endpoint_url : Option String
  patched : Bool
deriving DecidableEq

/-- Observable effects: construction of a boto3 client, and a network call
forwarded to a client (`getattr(client, method)(**kwargs)`). -/
inductive Event where
  | construct (service : String) (endpoint_url : Option String) (clientId : Nat)
  | call (clientId : Nat) (service : String) (endpoint_url : Option String)
      (method : String) (kwargs : Kwargs)
deriving DecidableEq

/-- The exceptions the wrapper can raise itself: `AttributeError` from
`__getattr__` for unknown names, `botocore.exceptions.ParamValidationError`
from `_get_client_by_arguments`, `KeyError` from `self._methods[method]`,
and exhaustion of the dispatch-nesting fuel of the embedding. -/
inductive Err where
  | attributeError (method : String)
  | paramValidationError (report : String)
  | keyError (key : String)
  | outOfFuel
deriving DecidableEq

/-- Default `maxsize` of `functools.lru_cache()`. -/
def maxsize : Nat := 128

/-- First-match association-list lookup (Python dict lookup). -/
def alookup {κ α : Type} [DecidableEq κ] : List (κ × α) → κ → Option α
  | [], _ => none
  | (k', v) :: rest, k => if k' = k then some v else alookup rest k

/-- LRU lookup: find the value bound to `k` and the list with that entry
removed, so that a cache hit can reinsert the entry at the
most-recently-used (front) position. -/
def lruExtract {κ α : Type} [DecidableEq κ] : List (κ × α) → κ → Option (α × List (κ × α))
  | [], _ => none
  | (k', v) :: rest, k =>
    if k' = k then some (v, rest)
    else
      match lruExtract rest k with
      | none => none
      | some (v', rest') => some (v', (k', v) :: rest')

/-- LRU insertion after a cache miss, as `functools.lru_cache` performs it
once the user function has returned: if the key was inserted meanwhile (only
possible through reentrant calls) the cache is left alone, otherwise the new
entry becomes most recently used and the least-recently-used entry is
dropped once the cache would exceed `maxsize` entries. -/
def lruInsert {κ α : Type} [DecidableEq κ] (cache : List (κ × α)) (k : κ) (v : α) :
    List (κ × α) :=
  if (alookup cache k).isSome then cache else (k, v) :: cache.take (maxsize - 1)

/-- Python dict assignment `m[k] = v`: overwrite in place, append if new. -/
def dictInsert : List (String × String) → String → String → List (String × String)
  | [], k, v => [(k, v)]
  | (k', v') :: rest, k, v =>
    if k' = k then (k, v) :: rest else (k', v') :: dictInsert rest k v

/-- Python truthiness of an optional string argument: an absent argument
(default `None`) and the empty string are falsy, every other string is
truthy. -/
def truthy : Option String → Bool
  | none => false
  | some s => s != ""

/-- Python `str.upper()` on the ASCII operation names the wrapper handles
(computable by the kernel, unlike `String.toUpper`). -/
def pyUpper (s : String) : String := String.mk (s.data.map Char.toUpper)

deriving instance DecidableEq for Except

/-- The `KinesisVideo._CONTROL_SERVICES` tuple. -/
def CONTROL_SERVICES : List String := ["kinesisvideo"]

/-- The `KinesisVideo._DATA_SERVICES` tuple. -/
def DATA_SERVICES : List String := ["kinesis-video-media", "kinesis-video-archived-media"]

/-- The state of one `KinesisVideo` facade instance: the `_methods` catalog
dict, the four lru caches (keyed exactly as the decorated functions are
called), the construction counter that gives clients their identity, and the
trace of observable effects so far. -/
structure KVState where
  methods : List (String × String)
  arnCache : List (String × String)
  endpointCache : List ((String × String) × String)
  clientCache : List ((String × Option String) × Client)
  argCache : List ((String × Option String × Option String) × Client)
  nextClientId : Nat
  trace : List Event
deriving DecidableEq

/-- The operation names of a client, `meta.method_to_api_mapping.keys()`:
the botocore base list of its service, with `put_media` appended by
`_patch_kinesis_video_media` on a patched client. -/
def Client.methodList (env : Env) (c : Client) : List String :=
  env.baseMethods c.service ++ (if c.patched then ["put_media"] else [])

/-- Embeds `_get_client_for_service` (lines 51-56) together with its
`lru_cache`: construct a client bound to `(service, endpoint_url)` unless one
is cached, applying the `kinesis-video-media` patch on construction. -/
def get_client_for_service (st : KVState) (service : String)
    (endpoint_url : Option String) : KVState × Client :=
  match lruExtract st.clientCache (service, endpoint_url) with
  | some (c, rest) =>
      ({ st with clientCache := ((service, endpoint_url), c) :: rest }, c)
  | none =>
      let c : Client :=
        { id := st.nextClientId, service := service, endpoint_url := endpoint_url,
          patched := service == "kinesis-video-media" }
      ({ st with
          clientCache := ((service, endpoint_url), c) :: st.clientCache.take (maxsize - 1),
          nextClientId := st.nextClientId + 1,
          trace := st.trace ++ [.construct service endpoint_url c.id] }, c)

mutual

/-- Embeds `_get_arn_for_stream_name` (lines 36-41) with its `lru_cache`:
memoized by the stream name; on a miss it dispatches
`self.describe_stream(StreamName=stream_name)` through the facade itself and
reads `StreamARN` out of the response. -/
def get_arn_for_stream_name (fuel : Nat) (env : Env) (st : KVState)
    (stream_name : String) : KVState × Except Err String :=
  match lruExtract st.arnCache stream_name with
  | some (arn, rest) =>
      ({ st with arnCache := (stream_name, arn) :: rest }, .ok arn)
  | none =>
      match fuel with
      | 0 => (st, .error .outOfFuel)
      | fuel + 1 =>
          match api_call fuel env st "describe_stream" [("StreamName", stream_name)] with
          | (st', .error e) => (st', .error e)
          | (st', .ok response) =>
              ({ st' with arnCache := lruInsert st'.arnCache stream_name response.streamArn },
                .ok response.streamArn)

/-- Embeds `_get_endpoint_for_stream_method` (lines 43-49) with its
`lru_cache`: memoized by the exact `(stream_arn, method)` pair; on a miss it
dispatches `self.get_data_endpoint(StreamARN=stream_arn,
APIName=method.upper())` through the facade itself and reads `DataEndpoint`
out of the response. -/
def get_endpoint_for_stream_method (fuel : Nat) (env : Env) (st : KVState)
    (stream_arn method : String) : KVState × Except Err String :=
  match lruExtract st.endpointCache (stream_arn, method) with
  | some (endpoint, rest) =>
      ({ st with endpointCache := ((stream_arn, method), endpoint) :: rest }, .ok endpoint)
  | none =>
      match fuel with
      | 0 => (st, .error .outOfFuel)
      | fuel + 1 =>
          match api_call fuel env st "get_data_endpoint"
              [("StreamARN", stream_arn), ("APIName", pyUpper method)] with
          | (st', .error e) => (st', .error e)
          | (st', .ok response) =>
              ({ st' with endpointCache :=
                  lruInsert st'.endpointCache (stream_arn, method) response.dataEndpoint },
                .ok response.dataEndpoint)

/-- Embeds `_get_client_by_arguments` (lines 58-70) with its `lru_cache`:
memoized by `(method, stream_name, stream_arn)`; for a control-plane method
it returns the default client of the owning service; for a data-plane method
it validates that exactly one of the two reserved arguments is truthy,
resolves the ARN (when the name was given) and the endpoint, and returns the
client bound to that endpoint. -/
def get_client_by_arguments (fuel : Nat) (env : Env) (st : KVState) (method : String)
    (stream_name stream_arn : Option String) : KVState × Except Err Client :=
  match lruExtract st.argCache (method, stream_name, stream_arn) with
  | some (c, rest) =>
      ({ st with argCache := ((method, stream_name, stream_arn), c) :: rest }, .ok c)
  | none =>
      match alookup st.methods method with
      | none => (st, .error (.keyError method))
      | some service =>
          if service ∉ DATA_SERVICES then
            let p := get_client_for_service st service none
            ({ p.1 with argCache :=
                lruInsert p.1.argCache (method, stream_name, stream_arn) p.2 }, .ok p.2)
          else if !(truthy stream_name ^^ truthy stream_arn) then
            (st, .error (.paramValidationError
              "One of StreamName or StreamARN must be defined to determine service endpoint"))
          else
            match fuel with
            | 0 => (st, .error .outOfFuel)
            | fuel + 1 =>
                match
                  (if truthy stream_name then
                    get_arn_for_stream_name fuel env st (stream_name.getD "")
                  else (st, .ok (stream_arn.getD ""))) with
                | (st1, .error e) => (st1, .error e)
                | (st1, .ok arn) =>
                    match get_endpoint_for_stream_method fuel env st1 arn method with
                    | (st2, .error e) => (st2, .error e)
                    | (st2, .ok endpoint) =>
                        let p := get_client_for_service st2 service (some endpoint)
                        ({ p.1 with argCache :=
                            lruInsert p.1.argCache (method, stream_name, stream_arn) p.2 },
                          .ok p.2)

/-- Embeds `__getattr__` plus the inner `_api_call` closure (lines 72-80):
unknown names fall back to ordinary attribute semantics (`AttributeError`);
known operation names filter the two reserved kwargs, obtain a client from
`_get_client_by_arguments`, and forward the original kwargs unchanged. -/
def api_call (fuel : Nat) (env : Env) (st : KVState) (method : String)
    (kwargs : Kwargs) : KVState × Except Err Response :=
  match alookup st.methods method with
  | none => (st, .error (.attributeError method))
  | some _ =>
      match fuel with
      | 0 => (st, .error .outOfFuel)
      | fuel + 1 =>
          match get_client_by_arguments fuel env st method
              (alookup kwargs "StreamName") (alookup kwargs "StreamARN") with
          | (st', .error e) => (st', .error e)
          | (st', .ok client) =>
              ({ st' with trace := st'.trace ++
                  [.call client.id client.service client.endpoint_url method kwargs] },
                .ok (env.respond method kwargs))

end

/-- Defining equation of `get_arn_for_stream_name`, usable at an abstract
fuel value. -/
theorem get_arn_eq (fuel : Nat) (env : Env) (st : KVState) (n : String) :
    get_arn_for_stream_name fuel env st n =
      (match lruExtract st.arnCache n with
        | some (arn, rest) => ({ st with arnCache := (n, arn) :: rest }, .ok arn)
        | none =>
            match fuel with
            | 0 => (st, .error .outOfFuel)
            | fuel + 1 =>
                match api_call fuel env st "describe_stream" [("StreamName", n)] with
                | (st', .error e) => (st', .error e)
                | (st', .ok response) =>
                    ({ st' with arnCache := lruInsert st'.arnCache n response.streamArn },
                      .ok response.streamArn)) := by
  cases fuel <;> rfl

/-- Defining equation of `get_endpoint_for_stream_method`, usable at an
abstract fuel value. -/
theorem get_endpoint_eq (fuel : Nat) (env : Env) (st : KVState) (a m : String) :
    get_endpoint_for_stream_method fuel env st a m =
      (match lruExtract st.endpointCache (a, m) with
        | some (endpoint, rest) =>
            ({ st with endpointCache := ((a, m), endpoint) :: rest }, .ok endpoint)
        | none =>
            match fuel with
            | 0 => (st, .error .outOfFuel)
            | fuel + 1 =>
                match api_call fuel env st "get_data_endpoint"
                    [("StreamARN", a), ("APIName", pyUpper m)] with
                | (st', .error e) => (st', .error e)
                | (st', .ok response) =>
                    ({ st' with endpointCache :=
                        lruInsert st'.endpointCache (a, m) response.dataEndpoint },
                      .ok response.dataEndpoint)) := by
  cases fuel <;> rfl

/-- Defining equation of `get_client_by_arguments`, usable at an abstract
fuel value. -/
theorem gcba_eq (fuel : Nat) (env : Env) (st : KVState) (m : String)
    (sn sa : Option String) :
    get_client_by_arguments fuel env st m sn sa =
      (match lruExtract st.argCache (m, sn, sa) with
        | some (c, rest) =>
            ({ st with argCache := ((m, sn, sa), c) :: rest }, .ok c)
        | none =>
            match alookup st.methods m with
            | none => (st, .error (.keyError m))
            | some service =>
                if service ∉ DATA_SERVICES then
                  let p := get_client_for_service st service none
                  ({ p.1 with argCache := lruInsert p.1.argCache (m, sn, sa) p.2 }, .ok p.2)
                else if !(truthy sn ^^ truthy sa) then
                  (st, .error (.paramValidationError
                    "One of StreamName or StreamARN must be defined to determine service endpoint"))
                else
                  match fuel with
                  | 0 => (st, .error .outOfFuel)
                  | fuel + 1 =>
                      match
                        (if truthy sn then
                          get_arn_for_stream_name fuel env st (sn.getD "")
                        else (st, .ok (sa.getD ""))) with
                      | (st1, .error e) => (st1, .error e)
                      | (st1, .ok arn) =>
                          match get_endpoint_for_stream_method fuel env st1 arn m with
                          | (st2, .error e) => (st2, .error e)
                          | (st2, .ok endpoint) =>
                              let p := get_client_for_service st2 service (some endpoint)
                              ({ p.1 with argCache :=
                                  lruInsert p.1.argCache (m, sn, sa) p.2 }, .ok p.2)) := by
  cases fuel <;> rfl

/-- Defining equation of `api_call`, usable at an abstract fuel value. -/
theorem api_call_eq (fuel : Nat) (env : Env) (st : KVState) (m : String) (kw : Kwargs) :
    api_call fuel env st m kw =
      (match alookup st.methods m with
        | none => (st, .error (.attributeError m))
        | some _ =>
            match fuel with
            | 0 => (st, .error .outOfFuel)
            | fuel + 1 =>
                match get_client_by_arguments fuel env st m
                    (alookup kw "StreamName") (alookup kw "StreamARN") with
                | (st', .error e) => (st', .error e)
                | (st', .ok client) =>
                    ({ st' with trace := st'.trace ++
                        [.call client.id client.service client.endpoint_url m kw] },
                      .ok (env.respond m kw))) := by
  cases fuel <;> rfl

/-- The facade state before `__init__` has run. -/
def emptyState : KVState :=
  { methods := [], arnCache := [], endpointCache := [], clientCache := [],
    argCache := [], nextClientId := 0, trace := [] }

/-- The loop of `__init__` (lines 31-34): for each service obtain a prototype
client and register each of its operation names as owned by that service. -/
def initFold (env : Env) : KVState → List String → KVState
  | st, [] => st
  | st, service :: rest =>
      let p := get_client_for_service st service none
      initFold env
        { p.1 with methods :=
            (p.2.methodList env).foldl (fun m meth => dictInsert m meth service) p.1.methods }
        rest

/-- Embeds `__init__` (lines 28-34): the state of a freshly constructed
facade. -/
def initState (env : Env) : KVState :=
  initFold env emptyState (CONTROL_SERVICES ++ DATA_SERVICES)

/-- A concrete environment used to instantiate the theorems below: botocore
method lists for the three services, and a mocked upstream that resolves
every stream to ARN `arn:x` and every endpoint request to `https://ep`. -/
def testEnv : Env where
  baseMethods := fun service =>
    if service = "kinesisvideo" then
      ["create_stream", "delete_stream", "describe_stream", "get_data_endpoint",
        "list_streams", "list_tags_for_stream", "tag_stream", "untag_stream",
        "update_data_retention", "update_stream"]
    else if service = "kinesis-video-media" then ["get_media"]
    else if service = "kinesis-video-archived-media" then ["get_media_for_fragment_list"]
    else []
  respond := fun method _kwargs =>
    if method = "describe_stream" then { streamArn := "arn:x", dataEndpoint := "" }
    else if method = "get_data_endpoint" then { streamArn := "", dataEndpoint := "https://ep" }
    else { streamArn := "", dataEndpoint := "" }

/-! ### Association-list and LRU-cache lemmas -/

theorem alookup_eq_none_iff_forall {κ α : Type} [DecidableEq κ] (l : List (κ × α)) (k : κ) :
    alookup l k = none ↔ ∀ v, (k, v) ∉ l := by
  induction l with
  | nil => simp [alookup]
  | cons e rest ih =>
      obtain ⟨k', v'⟩ := e
      by_cases h : k' = k
      · subst h
        constructor
        · intro hf
          simp [alookup] at hf
        · intro hf
          exact absurd (List.mem_cons_self _ _) (hf v')
      · simp only [alookup, if_neg h, ih, List.mem_cons]
        constructor
        · intro hf v hv
          rcases hv with hv | hv
          · exact h (congrArg Prod.fst hv.symm)
          · exact hf v hv
        · intro hf v hv
          exact hf v (Or.inr hv)

theorem lruExtract_eq_none_iff {κ α : Type} [DecidableEq κ] (l : List (κ × α)) (k : κ) :
    lruExtract l k = none ↔ alookup l k = none := by
  induction l with
  | nil => simp [lruExtract, alookup]
  | cons e rest ih =>
      obtain ⟨k', v'⟩ := e
      by_cases h : k' = k
      · subst h; simp [lruExtract, alookup]
      · simp only [lruExtract, alookup, if_neg h, ← ih]
        cases hE : lruExtract rest k with
        | none => simp
        | some p => simp [hE]

theorem lruExtract_eq_none_of_forall {κ α : Type} [DecidableEq κ] {l : List (κ × α)} {k : κ}
    (h : ∀ v, (k, v) ∉ l) : lruExtract l k = none := by
  rw [lruExtract_eq_none_iff, alookup_eq_none_iff_forall]
  exact h

theorem lruExtract_mem {κ α : Type} [DecidableEq κ] {l : List (κ × α)} {k : κ} {v : α}
    {rest : List (κ × α)} (h : lruExtract l k = some (v, rest)) : (k, v) ∈ l := by
  induction l generalizing rest with
  | nil => simp [lruExtract] at h
  | cons e tail ih =>
      obtain ⟨k', v'⟩ := e
      by_cases hk : k' = k
      · subst hk
        simp [lruExtract] at h
        exact List.mem_cons.mpr (Or.inl (by simp [h.1]))
      · simp only [lruExtract, if_neg hk] at h
        cases hE : lruExtract tail k with
        | none => rw [hE] at h; simp at h
        | some p =>
            obtain ⟨v'', rest''⟩ := p
            rw [hE] at h
            simp only [Option.some.injEq, Prod.mk.injEq] at h
            exact List.mem_cons_of_mem _ (ih (h.1 ▸ hE))

theorem lruExtract_rest_subset {κ α : Type} [DecidableEq κ] {l : List (κ × α)} {k : κ} {v : α}
    {rest : List (κ × α)} (h : lruExtract l k = some (v, rest)) : ∀ x ∈ rest, x ∈ l := by
  induction l generalizing rest with
  | nil => simp [lruExtract] at h
  | cons e tail ih =>
      obtain ⟨k', v'⟩ := e
      by_cases hk : k' = k
      · subst hk
        simp [lruExtract] at h
        intro x hx
        exact List.mem_cons_of_mem _ (h.2 ▸ hx)
      · simp only [lruExtract, if_neg hk] at h
        cases hE : lruExtract tail k with
        | none => rw [hE] at h; simp at h
        | some p =>
            obtain ⟨v'', rest''⟩ := p
            rw [hE] at h
            simp only [Option.some.injEq, Prod.mk.injEq] at h
            intro x hx
            rw [← h.2] at hx
            rcases List.mem_cons.mp hx with hx | hx
            · exact hx ▸ List.mem_cons_self _ _
            · exact List.mem_cons_of_mem _ (ih (h.1 ▸ hE) x hx)

theorem lruExtract_length {κ α : Type} [DecidableEq κ] {l : List (κ × α)} {k : κ} {v : α}
    {rest : List (κ × α)} (h : lruExtract l k = some (v, rest)) :
    rest.length + 1 = l.length := by
  induction l generalizing rest with
  | nil => simp [lruExtract] at h
  | cons e tail ih =>
      obtain ⟨k', v'⟩ := e
      by_cases hk : k' = k
      · subst hk
        simp [lruExtract] at h
        simp [← h.2]
      · simp only [lruExtract, if_neg hk] at h
        cases hE : lruExtract tail k with
        | none => rw [hE] at h; simp at h
        | some p =>
            obtain ⟨v'', rest''⟩ := p
            rw [hE] at h
            simp only [Option.some.injEq, Prod.mk.injEq] at h
            have hlen := ih (h.1 ▸ hE)
            rw [← h.2]
            simp only [List.length_cons]
            omega

theorem lruExtract_alookup {κ α : Type} [DecidableEq κ] {l : List (κ × α)} {k : κ} {v : α}
    {rest : List (κ × α)} (h : lruExtract l k = some (v, rest)) : alookup l k = some v := by
  induction l generalizing rest with
  | nil => simp [lruExtract] at h
  | cons e tail ih =>
      obtain ⟨k', v'⟩ := e
      by_cases hk : k' = k
      · subst hk
        simp [lruExtract] at h
        simp [alookup, h.1]
      · simp only [lruExtract, if_neg hk] at h
        cases hE : lruExtract tail k with
        | none => rw [hE] at h; simp at h
        | some p =>
            obtain ⟨v'', rest''⟩ := p
            rw [hE] at h
            simp only [Option.some.injEq, Prod.mk.injEq] at h
            simp only [alookup, if_neg hk]
            exact ih (h.1 ▸ hE)

theorem lruExtract_of_alookup {κ α : Type} [DecidableEq κ] {l : List (κ × α)} {k : κ} {v : α}
    (h : alookup l k = some v) : ∃ rest, lruExtract l k = some (v, rest) := by
  induction l with
  | nil => simp [alookup] at h
  | cons e tail ih =>
      obtain ⟨k', v'⟩ := e
      by_cases hk : k' = k
      · subst hk
        simp [alookup] at h
        exact ⟨tail, by simp [lruExtract, h]⟩
      · simp only [alookup, if_neg hk] at h
        obtain ⟨rest, hrest⟩ := ih h
        exact ⟨(k', v') :: rest, by simp [lruExtract, if_neg hk, hrest]⟩

theorem mem_lruInsert {κ α : Type} [DecidableEq κ] {l : List (κ × α)} {k : κ} {v : α}
    {x : κ × α} (h : x ∈ lruInsert l k v) : x = (k, v) ∨ x ∈ l := by
  unfold lruInsert at h
  split at h
  · exact Or.inr h
  · rcases List.mem_cons.mp h with h | h
    · exact Or.inl h
    · exact Or.inr (List.take_subset _ _ h)

theorem length_lruInsert_le {κ α : Type} [DecidableEq κ] {l : List (κ × α)} (k : κ) (v : α)
    (h : l.length ≤ maxsize) : (lruInsert l k v).length ≤ maxsize := by
  unfold lruInsert
  split
  · exact h
  · simp only [List.length_cons, List.length_take]
    have : maxsize = 127 + 1 := rfl
    omega

theorem isSome_alookup_lruInsert {κ α : Type} [DecidableEq κ] (l : List (κ × α)) (k : κ)
    (v : α) : (alookup (lruInsert l k v) k).isSome := by
  unfold lruInsert
  split
  · next h => exact h
  · simp [alookup]

theorem alookup_lruInsert_of_none {κ α : Type} [DecidableEq κ] {l : List (κ × α)} {k : κ}
    (v : α) (h : alookup l k = none) : alookup (lruInsert l k v) k = some v := by
  unfold lruInsert
  rw [h]
  simp [alookup]

theorem alookup_dictInsert (l : List (String × String)) (k v k' : String) :
    alookup (dictInsert l k v) k' = if k = k' then some v else alookup l k' := by
  induction l with
  | nil => simp [dictInsert, alookup]
  | cons e rest ih =>
      obtain ⟨k'', v''⟩ := e
      simp only [dictInsert]
      by_cases h : k'' = k
      · subst h
        by_cases h2 : k'' = k'
        · subst h2; simp [alookup]
        · simp [alookup, h2]
      · rw [if_neg h]
        by_cases h2 : k'' = k'
        · subst h2
          have hkk : k ≠ k'' := fun he => h he.symm
          simp [alookup, hkk]
        · simp [alookup, h2, ih]

theorem alookup_foldl_dictInsert_mem (svc : String) (ms : List String)
    (init : List (String × String)) {k : String}
    (h : k ∈ ms ∨ alookup init k = some svc) :
    alookup (ms.foldl (fun m meth => dictInsert m meth svc) init) k = some svc := by
  induction ms generalizing init with
  | nil => simpa using h.resolve_left (by simp)
  | cons a tl ih =>
      simp only [List.foldl_cons]
      apply ih
      by_cases hak : k ∈ tl
      · exact Or.inl hak
      · right
        rw [alookup_dictInsert]
        rcases h with h | h
        · rcases List.mem_cons.mp h with h | h
          · simp [h]
          · exact absurd h hak
        · by_cases hk : a = k
          · simp [hk]
          · simp [hk, h]

theorem alookup_foldl_dictInsert_not_mem (svc : String) (ms : List String)
    (init : List (String × String)) {k : String} (h : k ∉ ms) :
    alookup (ms.foldl (fun m meth => dictInsert m meth svc) init) k = alookup init k := by
  induction ms generalizing init with
  | nil => simp
  | cons a tl ih =>
      simp only [List.foldl_cons]
      have ha : a ≠ k := fun hak => h (hak ▸ List.mem_cons_self _ _)
      rw [ih _ (fun hm => h (List.mem_cons_of_mem _ hm)), alookup_dictInsert, if_neg ha]

/-! ### The freshly constructed facade -/

/-- The control-plane prototype client constructed by `__init__`. -/
def c0 : Client :=
  { id := 0, service := "kinesisvideo", endpoint_url := none, patched := false }

/-- The patched `kinesis-video-media` prototype client. -/
def c1 : Client :=
  { id := 1, service := "kinesis-video-media", endpoint_url := none, patched := true }

/-- The `kinesis-video-archived-media` prototype client. -/
def c2 : Client :=
  { id := 2, service := "kinesis-video-archived-media", endpoint_url := none, patched := false }

/-- The client cache right after `__init__` (most recently used first). -/
def initClients : List ((String × Option String) × Client) :=
  [(("kinesis-video-archived-media", none), c2), (("kinesis-video-media", none), c1),
    (("kinesisvideo", none), c0)]

/-- The construction events of `__init__`. -/
def initTrace : List Event :=
  [.construct "kinesisvideo" none 0, .construct "kinesis-video-media" none 1,
    .construct "kinesis-video-archived-media" none 2]

/-- The `_methods` dict built by `__init__`: each service's operations
registered in order, later services overwriting earlier ones on a name
collision, with `put_media` present through the patched
`kinesis-video-media` prototype. -/
def catalogOf (env : Env) : List (String × String) :=
  ((env.baseMethods "kinesis-video-archived-media" ++ []).foldl
    (fun m meth => dictInsert m meth "kinesis-video-archived-media")
    ((env.baseMethods "kinesis-video-media" ++ ["put_media"]).foldl
      (fun m meth => dictInsert m meth "kinesis-video-media")
      ((env.baseMethods "kinesisvideo" ++ []).foldl
        (fun m meth => dictInsert m meth "kinesisvideo") [])))

theorem initState_eq (env : Env) :
    initState env =
      { methods := catalogOf env, arnCache := [], endpointCache := [],
        clientCache := initClients, argCache := [], nextClientId := 3,
        trace := initTrace } := rfl

theorem alookup_catalogOf_put_media (env : Env)
    (h : "put_media" ∉ env.baseMethods "kinesis-video-archived-media") :
    alookup (catalogOf env) "put_media" = some "kinesis-video-media" := by
  unfold catalogOf
  rw [alookup_foldl_dictInsert_not_mem _ _ _ (by simp [h]),
    alookup_foldl_dictInsert_mem _ _ _ (Or.inl (by simp))]

/-! ### Well-formed facade states -/

/-- The value `_get_arn_for_stream_name` computes for a name when it has to
ask the network. -/
def arnCanon (env : Env) (n : String) : String :=
  (env.respond "describe_stream" [("StreamName", n)]).streamArn

/-- The value `_get_endpoint_for_stream_method` computes for an (ARN,
method) pair when it has to ask the network. -/
def epCanon (env : Env) (a m : String) : String :=
  (env.respond "get_data_endpoint" [("StreamARN", a), ("APIName", pyUpper m)]).dataEndpoint

/-- A client-cache entry holds a client bound to exactly its key. -/
def clientEntryOK (e : (String × Option String) × Client) : Prop :=
  e.2.service = e.1.1 ∧ e.2.endpoint_url = e.1.2

instance (e : (String × Option String) × Client) : Decidable (clientEntryOK e) := by
  unfold clientEntryOK; infer_instance

/-- A `_get_client_by_arguments` cache key is one the function can have
returned successfully on: its method is in the catalog, and for a
data-plane method exactly one of the reserved arguments was truthy. -/
def argEntryOK (methods : List (String × String))
    (k : String × Option String × Option String) : Bool :=
  match alookup methods k.1 with
  | none => false
  | some service => !(DATA_SERVICES.contains service) || (truthy k.2.1 ^^ truthy k.2.2)

/-- Invariant of every reachable facade state: cached clients are bound to
their keys, cached `_get_client_by_arguments` keys passed validation,
cached ARNs and endpoints are what the mocked-deterministic network
answers for their keys, and no lru cache exceeds its 128-entry bound. -/
def StateWF (env : Env) (st : KVState) : Prop :=
  (∀ e ∈ st.clientCache, clientEntryOK e) ∧
  (∀ e ∈ st.argCache, argEntryOK st.methods e.1 = true) ∧
  (∀ e ∈ st.arnCache, e.2 = arnCanon env e.1) ∧
  (∀ e ∈ st.endpointCache, e.2 = epCanon env e.1.1 e.1.2) ∧
  (st.arnCache.length ≤ maxsize ∧ st.endpointCache.length ≤ maxsize ∧
    st.clientCache.length ≤ maxsize ∧ st.argCache.length ≤ maxsize)

theorem stateWF_init (env : Env) : StateWF env (initState env) := by
  rw [initState_eq]
  refine ⟨?_, ?_, ?_, ?_, ?_, ?_, ?_, ?_⟩
  · show ∀ e ∈ initClients, clientEntryOK e
    decide
  · intro e he
    simp at he
  · intro e he
    simp at he
  · intro e he
    simp at he
  · show List.length [] ≤ maxsize
    decide
  · show List.length [] ≤ maxsize
    decide
  · show initClients.length ≤ maxsize
    decide
  · show List.length [] ≤ maxsize
    decide

/-- One call of the facade preserves the catalog, only appends to the
trace, and preserves the state invariant. -/
def Preserves (env : Env) (st st' : KVState) : Prop :=
  st'.methods = st.methods ∧ (∃ t, st'.trace = st.trace ++ t) ∧
  (StateWF env st → StateWF env st')

theorem preserves_refl (env : Env) (st : KVState) : Preserves env st st :=
  ⟨rfl, ⟨[], by simp⟩, id⟩

theorem preserves_trans {env : Env} {s1 s2 s3 : KVState} (h1 : Preserves env s1 s2)
    (h2 : Preserves env s2 s3) : Preserves env s1 s3 := by
  obtain ⟨m1, ⟨t1, ht1⟩, w1⟩ := h1
  obtain ⟨m2, ⟨t2, ht2⟩, w2⟩ := h2
  exact ⟨m2.trans m1, ⟨t1 ++ t2, by rw [ht2, ht1, List.append_assoc]⟩, fun h => w2 (w1 h)⟩

/-! ### Shape lemmas for `_get_client_for_service` -/

theorem gcfs_methods (st : KVState) (s : String) (e : Option String) :
    (get_client_for_service st s e).1.methods = st.methods := by
  unfold get_client_for_service; split <;> rfl

theorem gcfs_arnCache (st : KVState) (s : String) (e : Option String) :
    (get_client_for_service st s e).1.arnCache = st.arnCache := by
  unfold get_client_for_service; split <;> rfl

theorem gcfs_endpointCache (st : KVState) (s : String) (e : Option String) :
    (get_client_for_service st s e).1.endpointCache = st.endpointCache := by
  unfold get_client_for_service; split <;> rfl

theorem gcfs_argCache (st : KVState) (s : String) (e : Option String) :
    (get_client_for_service st s e).1.argCache = st.argCache := by
  unfold get_client_for_service; split <;> rfl

theorem gcfs_trace (st : KVState) (s : String) (e : Option String) :
    (get_client_for_service st s e).1.trace = st.trace ∨
    (get_client_for_service st s e).1.trace =
      st.trace ++ [Event.construct s e st.nextClientId] := by
  unfold get_client_for_service
  cases hE : lruExtract st.clientCache (s, e) with
  | none => exact Or.inr rfl
  | some p => exact Or.inl rfl

theorem gcfs_client {st : KVState} (h : ∀ x ∈ st.clientCache, clientEntryOK x)
    (s : String) (e : Option String) :
    (get_client_for_service st s e).2.service = s ∧
    (get_client_for_service st s e).2.endpoint_url = e := by
  unfold get_client_for_service
  cases hE : lruExtract st.clientCache (s, e) with
  | none => exact ⟨rfl, rfl⟩
  | some p =>
      obtain ⟨c, rest⟩ := p
      exact h _ (lruExtract_mem hE)

theorem gcfs_clientCacheWF {st : KVState} (h : ∀ x ∈ st.clientCache, clientEntryOK x)
    (s : String) (e : Option String) :
    ∀ x ∈ (get_client_for_service st s e).1.clientCache, clientEntryOK x := by
  unfold get_client_for_service
  cases hE : lruExtract st.clientCache (s, e) with
  | none =>
      intro x hx
      rcases List.mem_cons.mp hx with hx | hx
      · subst hx; exact ⟨rfl, rfl⟩
      · exact h _ (List.take_subset _ _ hx)
  | some p =>
      obtain ⟨c, rest⟩ := p
      intro x hx
      rcases List.mem_cons.mp hx with hx | hx
      · subst hx; exact h _ (lruExtract_mem hE)
      · exact h _ (lruExtract_rest_subset hE _ hx)

theorem gcfs_clientCache_len {st : KVState} (h : st.clientCache.length ≤ maxsize)
    (s : String) (e : Option String) :
    (get_client_for_service st s e).1.clientCache.length ≤ maxsize := by
  unfold get_client_for_service
  cases hE : lruExtract st.clientCache (s, e) with
  | none =>
      simp only [List.length_cons, List.length_take]
      have : maxsize = 127 + 1 := rfl
      omega
  | some p =>
      obtain ⟨c, rest⟩ := p
      have := lruExtract_length hE
      simp only [List.length_cons]
      omega

theorem gcfs_preserves (env : Env) (st : KVState) (s : String) (e : Option String) :
    Preserves env st (get_client_for_service st s e).1 := by
  refine ⟨gcfs_methods st s e, ?_, ?_⟩
  · rcases gcfs_trace st s e with h | h
    · exact ⟨[], by simp [h]⟩
    · exact ⟨_, h⟩
  · intro ⟨hc, ha, hn, hp, hl⟩
    refine ⟨gcfs_clientCacheWF hc s e, ?_, ?_, ?_, ?_⟩
    · rw [gcfs_argCache, gcfs_methods]; exact ha
    · rw [gcfs_arnCache]; exact hn
    · rw [gcfs_endpointCache]; exact hp
    · rw [gcfs_arnCache, gcfs_endpointCache, gcfs_argCache]
      exact ⟨hl.1, hl.2.1, gcfs_clientCache_len hl.2.2.1 s e, hl.2.2.2⟩

/-! ### Cache-hit behaviour of the memoized resolvers -/

theorem get_arn_hit {st : KVState} {n w : String} (fuel : Nat) (env : Env)
    (h : alookup st.arnCache n = some w) :
    (get_arn_for_stream_name fuel env st n).2 = .ok w ∧
    (get_arn_for_stream_name fuel env st n).1.trace = st.trace ∧
    alookup (get_arn_for_stream_name fuel env st n).1.arnCache n = some w := by
  obtain ⟨rest, hE⟩ := lruExtract_of_alookup h
  rw [get_arn_eq, hE]
  exact ⟨rfl, rfl, by simp [alookup]⟩

theorem get_endpoint_hit {st : KVState} {a m w : String} (fuel : Nat) (env : Env)
    (h : alookup st.endpointCache (a, m) = some w) :
    (get_endpoint_for_stream_method fuel env st a m).2 = .ok w ∧
    (get_endpoint_for_stream_method fuel env st a m).1.trace = st.trace ∧
    alookup (get_endpoint_for_stream_method fuel env st a m).1.endpointCache (a, m) = some w := by
  obtain ⟨rest, hE⟩ := lruExtract_of_alookup h
  rw [get_endpoint_eq, hE]
  exact ⟨rfl, rfl, by simp [alookup]⟩

/-! ### Behaviour of dispatch for control-plane operations -/

theorem api_call_ok_respond {fuel : Nat} {env : Env} {st : KVState} {m : String}
    {kw : Kwargs} {r : Response} (h : (api_call fuel env st m kw).2 = .ok r) :
    r = env.respond m kw := by
  rw [api_call_eq] at h
  split at h
  · simp at h
  · split at h
    · simp at h
    · split at h
      · simp at h
      · simp at h
        exact h.symm

theorem gcba_control {f : Nat} {env : Env} {st : KVState} {m : String}
    {sn sa : Option String} {svc : String}
    (hm : alookup st.methods m = some svc) (hsvc : svc ∉ DATA_SERVICES) :
    ∃ c st', get_client_by_arguments f env st m sn sa = (st', .ok c) ∧
      st'.methods = st.methods ∧ st'.arnCache = st.arnCache ∧
      st'.endpointCache = st.endpointCache ∧
      (st'.trace = st.trace ∨
        st'.trace = st.trace ++ [Event.construct svc none c.id]) := by
  rw [gcba_eq]
  cases hA : lruExtract st.argCache (m, sn, sa) with
  | some p =>
      obtain ⟨c, rest⟩ := p
      exact ⟨c, _, rfl, rfl, rfl, rfl, Or.inl rfl⟩
  | none =>
      rw [hm]
      simp only [if_pos hsvc]
      unfold get_client_for_service
      cases hC : lruExtract st.clientCache (svc, none) with
      | some p =>
          obtain ⟨c, rest⟩ := p
          exact ⟨c, _, rfl, rfl, rfl, rfl, Or.inl rfl⟩
      | none =>
          exact ⟨_, _, rfl, rfl, rfl, rfl, Or.inr rfl⟩

theorem api_call_control {f : Nat} {env : Env} {st : KVState} {cm : String}
    {kw : Kwargs} {svc : String}
    (hm : alookup st.methods cm = some svc) (hsvc : svc ∉ DATA_SERVICES) :
    ∃ pre cid cs ce st',
      api_call (f + 1) env st cm kw = (st', .ok (env.respond cm kw)) ∧
      st'.methods = st.methods ∧
      st'.arnCache = st.arnCache ∧
      st'.endpointCache = st.endpointCache ∧
      st'.trace = st.trace ++ pre ++ [Event.call cid cs ce cm kw] ∧
      (pre = [] ∨ ∃ s e i, pre = [Event.construct s e i]) := by
  obtain ⟨c, st', heq, hmet, harn, hep, htr⟩ :=
    @gcba_control f env st cm (alookup kw "StreamName") (alookup kw "StreamARN") svc hm hsvc
  rw [api_call_eq, hm]
  simp only [heq]
  rcases htr with htr | htr
  · exact ⟨[], c.id, c.service, c.endpoint_url, _, rfl, hmet, harn, hep,
      by simp [htr], Or.inl rfl⟩
  · exact ⟨[Event.construct svc none c.id], c.id, c.service, c.endpoint_url, _, rfl,
      hmet, harn, hep, by simp [htr], Or.inr ⟨_, _, _, rfl⟩⟩

theorem api_call_control_exact {f : Nat} {env : Env} {st : KVState} {cm : String}
    {kw : Kwargs} {svc : String} {c : Client} {rest : List ((String × Option String) × Client)}
    (hm : alookup st.methods cm = some svc) (hsvc : svc ∉ DATA_SERVICES)
    (hA : lruExtract st.argCache (cm, alookup kw "StreamName", alookup kw "StreamARN") = none)
    (hC : lruExtract st.clientCache (svc, none) = some (c, rest)) :
    api_call (f + 1) env st cm kw =
      ({ st with
          clientCache := ((svc, none), c) :: rest,
          argCache := lruInsert st.argCache
            (cm, alookup kw "StreamName", alookup kw "StreamARN") c,
          trace := st.trace ++ [Event.call c.id c.service c.endpoint_url cm kw] },
        .ok (env.respond cm kw)) := by
  have hg : get_client_by_arguments f env st cm
      (alookup kw "StreamName") (alookup kw "StreamARN") =
      ({ st with
          clientCache := ((svc, none), c) :: rest,
          argCache := lruInsert st.argCache
            (cm, alookup kw "StreamName", alookup kw "StreamARN") c }, .ok c) := by
    rw [gcba_eq, hA, hm]
    simp only [if_pos hsvc]
    unfold get_client_for_service
    rw [hC]
  rw [api_call_eq, hm]
  simp only [hg]

/-! ### Branch equations of the fueled operations -/

theorem get_arn_hit_eq {st : KVState} {n arn : String} {rest : List (String × String)}
    (fuel : Nat) (env : Env) (hE : lruExtract st.arnCache n = some (arn, rest)) :
    get_arn_for_stream_name fuel env st n =
      ({ st with arnCache := (n, arn) :: rest }, .ok arn) := by
  rw [get_arn_eq, hE]

theorem get_arn_fuel0_eq {st : KVState} {n : String} (env : Env)
    (hE : lruExtract st.arnCache n = none) :
    get_arn_for_stream_name 0 env st n = (st, .error .outOfFuel) := by
  rw [get_arn_eq, hE]

theorem get_arn_miss_eq {st : KVState} {n : String} (fuel : Nat) (env : Env)
    (hE : lruExtract st.arnCache n = none) :
    get_arn_for_stream_name (fuel + 1) env st n =
      (match api_call fuel env st "describe_stream" [("StreamName", n)] with
        | (st1, .error e) => (st1, .error e)
        | (st1, .ok response) =>
            ({ st1 with arnCache := lruInsert st1.arnCache n response.streamArn },
              .ok response.streamArn)) := by
  rw [get_arn_eq, hE]

theorem get_endpoint_hit_eq {st : KVState} {a m endpoint : String}
    {rest : List ((String × String) × String)} (fuel : Nat) (env : Env)
    (hE : lruExtract st.endpointCache (a, m) = some (endpoint, rest)) :
    get_endpoint_for_stream_method fuel env st a m =
      ({ st with endpointCache := ((a, m), endpoint) :: rest }, .ok endpoint) := by
  rw [get_endpoint_eq, hE]

theorem get_endpoint_fuel0_eq {st : KVState} {a m : String} (env : Env)
    (hE : lruExtract st.endpointCache (a, m) = none) :
    get_endpoint_for_stream_method 0 env st a m = (st, .error .outOfFuel) := by
  rw [get_endpoint_eq, hE]

theorem get_endpoint_miss_eq {st : KVState} {a m : String} (fuel : Nat) (env : Env)
    (hE : lruExtract st.endpointCache (a, m) = none) :
    get_endpoint_for_stream_method (fuel + 1) env st a m =
      (match api_call fuel env st "get_data_endpoint"
          [("StreamARN", a), ("APIName", pyUpper m)] with
        | (st1, .error e) => (st1, .error e)
        | (st1, .ok response) =>
            ({ st1 with endpointCache :=
                lruInsert st1.endpointCache (a, m) response.dataEndpoint },
              .ok response.dataEndpoint)) := by
  rw [get_endpoint_eq, hE]

theorem gcba_hit_eq {st : KVState} {m : String} {sn sa : Option String} {c : Client}
    {rest : List ((String × Option String × Option String) × Client)}
    (fuel : Nat) (env : Env) (hE : lruExtract st.argCache (m, sn, sa) = some (c, rest)) :
    get_client_by_arguments fuel env st m sn sa =
      ({ st with argCache := ((m, sn, sa), c) :: rest }, .ok c) := by
  rw [gcba_eq, hE]

theorem gcba_keyerr_eq {st : KVState} {m : String} {sn sa : Option String}
    (fuel : Nat) (env : Env) (hE : lruExtract st.argCache (m, sn, sa) = none)
    (hM : alookup st.methods m = none) :
    get_client_by_arguments fuel env st m sn sa = (st, .error (.keyError m)) := by
  rw [gcba_eq, hE, hM]

theorem gcba_control_eq {st : KVState} {m : String} {sn sa : Option String}
    {service : String} (fuel : Nat) (env : Env)
    (hE : lruExtract st.argCache (m, sn, sa) = none)
    (hM : alookup st.methods m = some service) (hs : service ∉ DATA_SERVICES) :
    get_client_by_arguments fuel env st m sn sa =
      (let p := get_client_for_service st service none
       ({ p.1 with argCache := lruInsert p.1.argCache (m, sn, sa) p.2 }, .ok p.2)) := by
  rw [gcba_eq, hE, hM]
  simp only [if_pos hs]

theorem gcba_invalid_eq {st : KVState} {m : String} {sn sa : Option String}
    {service : String} (fuel : Nat) (env : Env)
    (hE : lruExtract st.argCache (m, sn, sa) = none)
    (hM : alookup st.methods m = some service) (hs : ¬ service ∉ DATA_SERVICES)
    (hx : (truthy sn ^^ truthy sa) = false) :
    get_client_by_arguments fuel env st m sn sa =
      (st, .error (.paramValidationError
        "One of StreamName or StreamARN must be defined to determine service endpoint")) := by
  rw [gcba_eq, hE, hM]
  simp only [if_neg hs, hx, Bool.not_false, if_true]

theorem gcba_data0_eq {st : KVState} {m : String} {sn sa : Option String}
    {service : String} (env : Env)
    (hE : lruExtract st.argCache (m, sn, sa) = none)
    (hM : alookup st.methods m = some service) (hs : ¬ service ∉ DATA_SERVICES)
    (hx : (truthy sn ^^ truthy sa) = true) :
    get_client_by_arguments 0 env st m sn sa = (st, .error .outOfFuel) := by
  rw [gcba_eq, hE, hM]
  simp only [if_neg hs, hx, Bool.not_true, Bool.false_eq_true, if_false]

theorem gcba_data_eq {st : KVState} {m : String} {sn sa : Option String}
    {service : String} (fuel : Nat) (env : Env)
    (hE : lruExtract st.argCache (m, sn, sa) = none)
    (hM : alookup st.methods m = some service) (hs : ¬ service ∉ DATA_SERVICES)
    (hx : (truthy sn ^^ truthy sa) = true) :
    get_client_by_arguments (fuel + 1) env st m sn sa =
      (match (if truthy sn then get_arn_for_stream_name fuel env st (sn.getD "")
          else (st, Except.ok (sa.getD ""))) with
        | (st1, .error e) => (st1, .error e)
        | (st1, .ok arn) =>
            match get_endpoint_for_stream_method fuel env st1 arn m with
            | (st2, .error e) => (st2, .error e)
            | (st2, .ok endpoint) =>
                let p := get_client_for_service st2 service (some endpoint)
                ({ p.1 with argCache := lruInsert p.1.argCache (m, sn, sa) p.2 },
                  .ok p.2)) := by
  rw [gcba_eq, hE, hM]
  simp only [if_neg hs, hx, Bool.not_true, Bool.false_eq_true, if_false]

theorem api_attr_eq {st : KVState} {m : String} (fuel : Nat) (env : Env) (kw : Kwargs)
    (hM : alookup st.methods m = none) :
    api_call fuel env st m kw = (st, .error (.attributeError m)) := by
  rw [api_call_eq, hM]

theorem api_fuel0_eq {st : KVState} {m : String} {service : String} (env : Env)
    (kw : Kwargs) (hM : alookup st.methods m = some service) :
    api_call 0 env st m kw = (st, .error .outOfFuel) := by
  rw [api_call_eq, hM]

theorem api_some_eq {st : KVState} {m : String} {service : String} (fuel : Nat)
    (env : Env) (kw : Kwargs) (hM : alookup st.methods m = some service) :
    api_call (fuel + 1) env st m kw =
      (match get_client_by_arguments fuel env st m
          (alookup kw "StreamName") (alookup kw "StreamARN") with
        | (st', .error e) => (st', .error e)
        | (st', .ok client) =>
            ({ st' with trace := st'.trace ++
                [.call client.id client.service client.endpoint_url m kw] },
              .ok (env.respond m kw))) := by
  rw [api_call_eq, hM]

/-! ### Preservation of the state invariant by every facade operation -/

theorem preserves_reorder_arn {env : Env} {st : KVState} {n arn : String}
    {rest : List (String × String)} (hE : lruExtract st.arnCache n = some (arn, rest)) :
    Preserves env st { st with arnCache := (n, arn) :: rest } := by
  refine ⟨rfl, ⟨[], by simp⟩, ?_⟩
  intro ⟨h1, h2, h3, h4, h5⟩
  refine ⟨h1, h2, ?_, h4, ?_, h5.2.1, h5.2.2.1, h5.2.2.2⟩
  · intro e he
    rcases List.mem_cons.mp he with he | he
    · subst he; exact h3 _ (lruExtract_mem hE)
    · exact h3 _ (lruExtract_rest_subset hE _ he)
  · have := lruExtract_length hE
    simp only [List.length_cons]
    omega

theorem preserves_reorder_ep {env : Env} {st : KVState} {a m ep : String}
    {rest : List ((String × String) × String)}
    (hE : lruExtract st.endpointCache (a, m) = some (ep, rest)) :
    Preserves env st { st with endpointCache := ((a, m), ep) :: rest } := by
  refine ⟨rfl, ⟨[], by simp⟩, ?_⟩
  intro ⟨h1, h2, h3, h4, h5⟩
  refine ⟨h1, h2, h3, ?_, h5.1, ?_, h5.2.2.1, h5.2.2.2⟩
  · intro e he
    rcases List.mem_cons.mp he with he | he
    · subst he; exact h4 _ (lruExtract_mem hE)
    · exact h4 _ (lruExtract_rest_subset hE _ he)
  · have := lruExtract_length hE
    simp only [List.length_cons]
    omega

theorem preserves_reorder_arg {env : Env} {st : KVState}
    {k : String × Option String × Option String} {c : Client}
    {rest : List ((String × Option String × Option String) × Client)}
    (hE : lruExtract st.argCache k = some (c, rest)) :
    Preserves env st { st with argCache := (k, c) :: rest } := by
  refine ⟨rfl, ⟨[], by simp⟩, ?_⟩
  intro ⟨h1, h2, h3, h4, h5⟩
  refine ⟨h1, ?_, h3, h4, h5.1, h5.2.1, h5.2.2.1, ?_⟩
  · intro e he
    rcases List.mem_cons.mp he with he | he
    · subst he; exact h2 _ (lruExtract_mem hE)
    · exact h2 _ (lruExtract_rest_subset hE _ he)
  · have := lruExtract_length hE
    simp only [List.length_cons]
    omega

theorem preserves_insert_arn {env : Env} {st : KVState} {n v : String}
    (hv : v = arnCanon env n) :
    Preserves env st { st with arnCache := lruInsert st.arnCache n v } := by
  refine ⟨rfl, ⟨[], by simp⟩, ?_⟩
  intro ⟨h1, h2, h3, h4, h5⟩
  refine ⟨h1, h2, ?_, h4, length_lruInsert_le _ _ h5.1, h5.2.1, h5.2.2.1, h5.2.2.2⟩
  intro e he
  rcases mem_lruInsert he with he | he
  · subst he; simpa using hv
  · exact h3 _ he

theorem preserves_insert_ep {env : Env} {st : KVState} {a m v : String}
    (hv : v = epCanon env a m) :
    Preserves env st { st with endpointCache := lruInsert st.endpointCache (a, m) v } := by
  refine ⟨rfl, ⟨[], by simp⟩, ?_⟩
  intro ⟨h1, h2, h3, h4, h5⟩
  refine ⟨h1, h2, h3, ?_, h5.1, length_lruInsert_le _ _ h5.2.1, h5.2.2.1, h5.2.2.2⟩
  intro e he
  rcases mem_lruInsert he with he | he
  · subst he; simpa using hv
  · exact h4 _ he

theorem preserves_insert_arg {env : Env} {st : KVState}
    {k : String × Option String × Option String} {c : Client}
    (hk : argEntryOK st.methods k = true) :
    Preserves env st { st with argCache := lruInsert st.argCache k c } := by
  refine ⟨rfl, ⟨[], by simp⟩, ?_⟩
  intro ⟨h1, h2, h3, h4, h5⟩
  refine ⟨h1, ?_, h3, h4, h5.1, h5.2.1, h5.2.2.1, length_lruInsert_le _ _ h5.2.2.2⟩
  intro e he
  rcases mem_lruInsert he with he | he
  · subst he; simpa using hk
  · exact h2 _ he

theorem get_arn_preserves_zero (env : Env) (st : KVState) (n : String) :
    Preserves env st (get_arn_for_stream_name 0 env st n).1 := by
  cases hE : lruExtract st.arnCache n with
  | some p =>
      obtain ⟨arn, rest⟩ := p
      rw [get_arn_hit_eq 0 env hE]
      exact preserves_reorder_arn hE
  | none =>
      rw [get_arn_fuel0_eq env hE]
      exact preserves_refl env st

theorem get_arn_preserves_succ (env : Env) (f : Nat)
    (Hapi : ∀ st m kw, Preserves env st (api_call f env st m kw).1)
    (st : KVState) (n : String) :
    Preserves env st (get_arn_for_stream_name (f + 1) env st n).1 := by
  cases hE : lruExtract st.arnCache n with
  | some p =>
      obtain ⟨arn, rest⟩ := p
      rw [get_arn_hit_eq (f + 1) env hE]
      exact preserves_reorder_arn hE
  | none =>
      rw [get_arn_miss_eq f env hE]
      have hp := Hapi st "describe_stream" [("StreamName", n)]
      split
      next st' e heq =>
          rw [heq] at hp
          exact hp
      next st' response heq =>
          rw [heq] at hp
          have hcanon : response.streamArn = arnCanon env n := by
            have h2 := api_call_ok_respond
              (show (api_call f env st "describe_stream" [("StreamName", n)]).2 =
                .ok response from by rw [heq])
            rw [h2]
            rfl
          exact preserves_trans hp (preserves_insert_arn hcanon)

theorem get_endpoint_preserves_zero (env : Env) (st : KVState) (a m : String) :
    Preserves env st (get_endpoint_for_stream_method 0 env st a m).1 := by
  cases hE : lruExtract st.endpointCache (a, m) with
  | some p =>
      obtain ⟨ep, rest⟩ := p
      rw [get_endpoint_hit_eq 0 env hE]
      exact preserves_reorder_ep hE
  | none =>
      rw [get_endpoint_fuel0_eq env hE]
      exact preserves_refl env st

theorem get_endpoint_preserves_succ (env : Env) (f : Nat)
    (Hapi : ∀ st m kw, Preserves env st (api_call f env st m kw).1)
    (st : KVState) (a m : String) :
    Preserves env st (get_endpoint_for_stream_method (f + 1) env st a m).1 := by
  cases hE : lruExtract st.endpointCache (a, m) with
  | some p =>
      obtain ⟨ep, rest⟩ := p
      rw [get_endpoint_hit_eq (f + 1) env hE]
      exact preserves_reorder_ep hE
  | none =>
      rw [get_endpoint_miss_eq f env hE]
      have hp := Hapi st "get_data_endpoint" [("StreamARN", a), ("APIName", pyUpper m)]
      split
      next st' e heq =>
          rw [heq] at hp
          exact hp
      next st' response heq =>
          rw [heq] at hp
          have hcanon : response.dataEndpoint = epCanon env a m := by
            have h2 := api_call_ok_respond
              (show (api_call f env st "get_data_endpoint"
                  [("StreamARN", a), ("APIName", pyUpper m)]).2 =
                .ok response from by rw [heq])
            rw [h2]
            rfl
          exact preserves_trans hp (preserves_insert_ep hcanon)

theorem gcba_control_preserves (env : Env) (fuel : Nat) {st : KVState} {m : String}
    {sn sa : Option String} {service : String}
    (hE : lruExtract st.argCache (m, sn, sa) = none)
    (hM : alookup st.methods m = some service) (hs : service ∉ DATA_SERVICES) :
    Preserves env st (get_client_by_arguments fuel env st m sn sa).1 := by
  rw [gcba_control_eq fuel env hE hM hs]
  refine preserves_trans (gcfs_preserves env st service none) ?_
  apply preserves_insert_arg
  rw [gcfs_methods]
  simp only [argEntryOK, hM]
  have hc : DATA_SERVICES.contains service = false := by simpa using hs
  simp only [hc, Bool.not_false, Bool.true_or]

theorem gcba_preserves_zero (env : Env) (st : KVState) (m : String)
    (sn sa : Option String) :
    Preserves env st (get_client_by_arguments 0 env st m sn sa).1 := by
  cases hE : lruExtract st.argCache (m, sn, sa) with
  | some p =>
      obtain ⟨c, rest⟩ := p
      rw [gcba_hit_eq 0 env hE]
      exact preserves_reorder_arg hE
  | none =>
      cases hM : alookup st.methods m with
      | none =>
          rw [gcba_keyerr_eq 0 env hE hM]
          exact preserves_refl env st
      | some service =>
          by_cases hs : service ∉ DATA_SERVICES
          · exact gcba_control_preserves env 0 hE hM hs
          · cases hx : (truthy sn ^^ truthy sa) with
            | false =>
                rw [gcba_invalid_eq 0 env hE hM hs hx]
                exact preserves_refl env st
            | true =>
                rw [gcba_data0_eq env hE hM hs hx]
                exact preserves_refl env st

theorem gcba_preserves_succ (env : Env) (f : Nat)
    (Harn : ∀ st n, Preserves env st (get_arn_for_stream_name f env st n).1)
    (Hep : ∀ st a m, Preserves env st (get_endpoint_for_stream_method f env st a m).1)
    (st : KVState) (m : String) (sn sa : Option String) :
    Preserves env st (get_client_by_arguments (f + 1) env st m sn sa).1 := by
  cases hE : lruExtract st.argCache (m, sn, sa) with
  | some p =>
      obtain ⟨c, rest⟩ := p
      rw [gcba_hit_eq (f + 1) env hE]
      exact preserves_reorder_arg hE
  | none =>
      cases hM : alookup st.methods m with
      | none =>
          rw [gcba_keyerr_eq (f + 1) env hE hM]
          exact preserves_refl env st
      | some service =>
          by_cases hs : service ∉ DATA_SERVICES
          · exact gcba_control_preserves env (f + 1) hE hM hs
          · cases hx : (truthy sn ^^ truthy sa) with
            | false =>
                rw [gcba_invalid_eq (f + 1) env hE hM hs hx]
                exact preserves_refl env st
            | true =>
                rw [gcba_data_eq f env hE hM hs hx]
                have hstep1 : Preserves env st
                    (if truthy sn then get_arn_for_stream_name f env st (sn.getD "")
                      else (st, Except.ok (sa.getD ""))).1 := by
                  cases htn : truthy sn with
                  | true => simpa using Harn st (sn.getD "")
                  | false => simpa using preserves_refl env st
                split
                next st1 e heq =>
                    rw [heq] at hstep1
                    exact hstep1
                next st1 arn heq =>
                    rw [heq] at hstep1
                    have hstep2 := Hep st1 arn m
                    split
                    next st2 e2 heq2 =>
                        rw [heq2] at hstep2
                        exact preserves_trans hstep1 hstep2
                    next st2 endpoint heq2 =>
                        rw [heq2] at hstep2
                        refine preserves_trans hstep1 (preserves_trans hstep2
                          (preserves_trans (gcfs_preserves env st2 service (some endpoint)) ?_))
                        apply preserves_insert_arg
                        rw [gcfs_methods, hstep2.1, hstep1.1]
                        simp only [argEntryOK, hM, hx, Bool.or_true]

theorem api_preserves_zero (env : Env) (st : KVState) (m : String) (kw : Kwargs) :
    Preserves env st (api_call 0 env st m kw).1 := by
  cases hM : alookup st.methods m with
  | none =>
      rw [api_attr_eq 0 env kw hM]
      exact preserves_refl env st
  | some service =>
      rw [api_fuel0_eq env kw hM]
      exact preserves_refl env st

theorem api_preserves_succ (env : Env) (f : Nat)
    (Hg : ∀ st m sn sa, Preserves env st (get_client_by_arguments f env st m sn sa).1)
    (st : KVState) (m : String) (kw : Kwargs) :
    Preserves env st (api_call (f + 1) env st m kw).1 := by
  cases hM : alookup st.methods m with
  | none =>
      rw [api_attr_eq (f + 1) env kw hM]
      exact preserves_refl env st
  | some service =>
      rw [api_some_eq f env kw hM]
      have hp := Hg st m (alookup kw "StreamName") (alookup kw "StreamARN")
      split
      next st' e heq =>
          rw [heq] at hp
          exact hp
      next st' client heq =>
          rw [heq] at hp
          exact preserves_trans hp ⟨rfl, ⟨_, rfl⟩, fun hwf => hwf⟩

/-- All four facade operations preserve the catalog, only append to the
trace, and preserve the state invariant, at every fuel. -/
theorem preserves_all (env : Env) (fuel : Nat) :
    (∀ st n, Preserves env st (get_arn_for_stream_name fuel env st n).1) ∧
    (∀ st a m, Preserves env st (get_endpoint_for_stream_method fuel env st a m).1) ∧
    (∀ st m sn sa, Preserves env st (get_client_by_arguments fuel env st m sn sa).1) ∧
    (∀ st m kw, Preserves env st (api_call fuel env st m kw).1) := by
  induction fuel with
  | zero =>
      exact ⟨get_arn_preserves_zero env, get_endpoint_preserves_zero env,
        gcba_preserves_zero env, api_preserves_zero env⟩
  | succ f ih =>
      exact ⟨get_arn_preserves_succ env f ih.2.2.2,
        get_endpoint_preserves_succ env f ih.2.2.2,
        gcba_preserves_succ env f ih.1 ih.2.1,
        api_preserves_succ env f ih.2.2.1⟩

theorem api_call_preserves (env : Env) (fuel : Nat) (st : KVState) (m : String)
    (kw : Kwargs) : Preserves env st (api_call fuel env st m kw).1 :=
  (preserves_all env fuel).2.2.2 st m kw

/-! ### The full data-plane dispatch from a freshly constructed facade -/

/-- Dispatching a data-plane operation with a truthy `StreamName` (and falsy
`StreamARN`) on a fresh facade: one `describe_stream` call on the control
client, one `get_data_endpoint` call on the control client (operation name
upper-cased), one construction of a client bound to the resolved endpoint,
and the forwarded call on that client, in that order. -/
theorem dispatch_data_fresh_name (env : Env) (f : Nat) {svc m n : String} {kw : Kwargs}
    (hm : alookup (catalogOf env) m = some svc)
    (hsvc : svc ∈ DATA_SERVICES)
    (hds : alookup (catalogOf env) "describe_stream" = some "kinesisvideo")
    (hde : alookup (catalogOf env) "get_data_endpoint" = some "kinesisvideo")
    (hsn : alookup kw "StreamName" = some n)
    (hn : n ≠ "")
    (hsa : truthy (alookup kw "StreamARN") = false) :
    (api_call (f + 4) env (initState env) m kw).2 = .ok (env.respond m kw) ∧
    (api_call (f + 4) env (initState env) m kw).1.trace =
      initTrace ++
        [Event.call 0 "kinesisvideo" none "describe_stream" [("StreamName", n)],
          Event.call 0 "kinesisvideo" none "get_data_endpoint"
            [("StreamARN", arnCanon env n), ("APIName", pyUpper m)],
          Event.construct svc (some (epCanon env (arnCanon env n) m)) 3,
          Event.call 3 svc (some (epCanon env (arnCanon env n) m)) m kw] := by
  have hs : ¬ svc ∉ DATA_SERVICES := not_not_intro hsvc
  have htn : truthy (some n) = true := by simp [truthy, hn]
  have hx : (truthy (some n) ^^ truthy (alookup kw "StreamARN")) = true := by
    rw [hsa, htn]
    rfl
  -- the state after the inner describe_stream dispatch and ARN caching
  have harn : get_arn_for_stream_name (f + 2) env
      ⟨catalogOf env, [], [], initClients, [], 3, initTrace⟩ n =
      (⟨catalogOf env, [(n, arnCanon env n)], [],
          [(("kinesisvideo", none), c0), (("kinesis-video-archived-media", none), c2),
            (("kinesis-video-media", none), c1)],
          [(("describe_stream", some n, none), c0)], 3,
          initTrace ++ [Event.call 0 "kinesisvideo" none "describe_stream"
            [("StreamName", n)]]⟩,
        .ok (arnCanon env n)) := by
    rw [show (f : Nat) + 2 = (f + 1) + 1 from rfl]
    rw [@get_arn_miss_eq ⟨catalogOf env, [], [], initClients, [], 3, initTrace⟩ n
      (f + 1) env rfl]
    rw [@api_call_control_exact f env ⟨catalogOf env, [], [], initClients, [], 3, initTrace⟩
      "describe_stream" [("StreamName", n)] "kinesisvideo" c0
      [(("kinesis-video-archived-media", none), c2), (("kinesis-video-media", none), c1)]
      hds (by decide) rfl rfl]
    rfl
  -- the state after the inner get_data_endpoint dispatch and endpoint caching
  have hep : get_endpoint_for_stream_method (f + 2) env
      ⟨catalogOf env, [(n, arnCanon env n)], [],
        [(("kinesisvideo", none), c0), (("kinesis-video-archived-media", none), c2),
          (("kinesis-video-media", none), c1)],
        [(("describe_stream", some n, none), c0)], 3,
        initTrace ++ [Event.call 0 "kinesisvideo" none "describe_stream"
          [("StreamName", n)]]⟩
      (arnCanon env n) m =
      (⟨catalogOf env, [(n, arnCanon env n)],
          [((arnCanon env n, m), epCanon env (arnCanon env n) m)],
          [(("kinesisvideo", none), c0), (("kinesis-video-archived-media", none), c2),
            (("kinesis-video-media", none), c1)],
          [(("get_data_endpoint", none, some (arnCanon env n)), c0),
            (("describe_stream", some n, none), c0)], 3,
          initTrace ++ [Event.call 0 "kinesisvideo" none "describe_stream"
              [("StreamName", n)],
            Event.call 0 "kinesisvideo" none "get_data_endpoint"
              [("StreamARN", arnCanon env n), ("APIName", pyUpper m)]]⟩,
        .ok (epCanon env (arnCanon env n) m)) := by
    rw [show (f : Nat) + 2 = (f + 1) + 1 from rfl]
    rw [@get_endpoint_miss_eq
      ⟨catalogOf env, [(n, arnCanon env n)], [],
        [(("kinesisvideo", none), c0), (("kinesis-video-archived-media", none), c2),
          (("kinesis-video-media", none), c1)],
        [(("describe_stream", some n, none), c0)], 3,
        initTrace ++ [Event.call 0 "kinesisvideo" none "describe_stream"
          [("StreamName", n)]]⟩
      (arnCanon env n) m (f + 1) env rfl]
    rw [@api_call_control_exact f env
      ⟨catalogOf env, [(n, arnCanon env n)], [],
        [(("kinesisvideo", none), c0), (("kinesis-video-archived-media", none), c2),
          (("kinesis-video-media", none), c1)],
        [(("describe_stream", some n, none), c0)], 3,
        initTrace ++ [Event.call 0 "kinesisvideo" none "describe_stream"
          [("StreamName", n)]]⟩
      "get_data_endpoint" [("StreamARN", arnCanon env n), ("APIName", pyUpper m)]
      "kinesisvideo" c0
      [(("kinesis-video-archived-media", none), c2), (("kinesis-video-media", none), c1)]
      hde (by decide) rfl rfl]
    rfl
  -- the whole client resolution for the data-plane method
  have hgcba : get_client_by_arguments (f + 3) env
      ⟨catalogOf env, [], [], initClients, [], 3, initTrace⟩ m (some n)
      (alookup kw "StreamARN") =
      (⟨catalogOf env, [(n, arnCanon env n)],
          [((arnCanon env n, m), epCanon env (arnCanon env n) m)],
          ((svc, some (epCanon env (arnCanon env n) m)),
              ⟨3, svc, some (epCanon env (arnCanon env n) m),
                svc == "kinesis-video-media"⟩) ::
            [(("kinesisvideo", none), c0), (("kinesis-video-archived-media", none), c2),
              (("kinesis-video-media", none), c1)],
          lruInsert
            [(("get_data_endpoint", none, some (arnCanon env n)), c0),
              (("describe_stream", some n, none), c0)]
            (m, some n, alookup kw "StreamARN")
            ⟨3, svc, some (epCanon env (arnCanon env n) m), svc == "kinesis-video-media"⟩,
          4,
          initTrace ++ [Event.call 0 "kinesisvideo" none "describe_stream"
              [("StreamName", n)],
            Event.call 0 "kinesisvideo" none "get_data_endpoint"
              [("StreamARN", arnCanon env n), ("APIName", pyUpper m)],
            Event.construct svc (some (epCanon env (arnCanon env n) m)) 3]⟩,
        .ok ⟨3, svc, some (epCanon env (arnCanon env n) m),
          svc == "kinesis-video-media"⟩) := by
    rw [show (f : Nat) + 3 = (f + 2) + 1 from rfl]
    rw [@gcba_data_eq ⟨catalogOf env, [], [], initClients, [], 3, initTrace⟩ m (some n)
      (alookup kw "StreamARN") svc (f + 2) env rfl hm hs hx]
    rw [if_pos htn]
    simp only [Option.getD_some]
    rw [harn]
    show (match get_endpoint_for_stream_method (f + 2) env
        ⟨catalogOf env, [(n, arnCanon env n)], [],
          [(("kinesisvideo", none), c0), (("kinesis-video-archived-media", none), c2),
            (("kinesis-video-media", none), c1)],
          [(("describe_stream", some n, none), c0)], 3,
          initTrace ++ [Event.call 0 "kinesisvideo" none "describe_stream"
            [("StreamName", n)]]⟩
        (arnCanon env n) m with
      | (st2, Except.error e) => (st2, Except.error e)
      | (st2, Except.ok endpoint) =>
          let p := get_client_for_service st2 svc (some endpoint)
          ({ p.1 with argCache :=
              lruInsert p.1.argCache (m, some n, alookup kw "StreamARN") p.2 },
            Except.ok p.2)) = _
    rw [hep]
    have hCE : lruExtract
        [(("kinesisvideo", none), c0), (("kinesis-video-archived-media", none), c2),
          (("kinesis-video-media", none), c1)]
        (svc, some (epCanon env (arnCanon env n) m)) = none := by
      apply lruExtract_eq_none_of_forall
      intro v hv
      simp only [List.mem_cons, List.not_mem_nil, or_false, Prod.mk.injEq] at hv
      rcases hv with ⟨⟨_, h2⟩, _⟩ | ⟨⟨_, h2⟩, _⟩ | ⟨⟨_, h2⟩, _⟩ <;> exact Option.noConfusion h2
    show (let p := (get_client_for_service
        ⟨catalogOf env, [(n, arnCanon env n)],
          [((arnCanon env n, m), epCanon env (arnCanon env n) m)],
          [(("kinesisvideo", none), c0), (("kinesis-video-archived-media", none), c2),
            (("kinesis-video-media", none), c1)],
          [(("get_data_endpoint", none, some (arnCanon env n)), c0),
            (("describe_stream", some n, none), c0)], 3,
          initTrace ++ [Event.call 0 "kinesisvideo" none "describe_stream"
              [("StreamName", n)],
            Event.call 0 "kinesisvideo" none "get_data_endpoint"
              [("StreamARN", arnCanon env n), ("APIName", pyUpper m)]]⟩
        svc (some (epCanon env (arnCanon env n) m)))
      ({ p.1 with argCache :=
          lruInsert p.1.argCache (m, some n, alookup kw "StreamARN") p.2 },
        Except.ok p.2)) = _
    unfold get_client_for_service
    rw [hCE]
    simp [List.append_assoc, maxsize]
  -- assembling the dispatch itself
  have happ : api_call (f + 4) env (initState env) m kw =
      (⟨catalogOf env, [(n, arnCanon env n)],
          [((arnCanon env n, m), epCanon env (arnCanon env n) m)],
          ((svc, some (epCanon env (arnCanon env n) m)),
              ⟨3, svc, some (epCanon env (arnCanon env n) m),
                svc == "kinesis-video-media"⟩) ::
            [(("kinesisvideo", none), c0), (("kinesis-video-archived-media", none), c2),
              (("kinesis-video-media", none), c1)],
          lruInsert
            [(("get_data_endpoint", none, some (arnCanon env n)), c0),
              (("describe_stream", some n, none), c0)]
            (m, some n, alookup kw "StreamARN")
            ⟨3, svc, some (epCanon env (arnCanon env n) m), svc == "kinesis-video-media"⟩,
          4,
          initTrace ++ [Event.call 0 "kinesisvideo" none "describe_stream"
              [("StreamName", n)],
            Event.call 0 "kinesisvideo" none "get_data_endpoint"
              [("StreamARN", arnCanon env n), ("APIName", pyUpper m)],
            Event.construct svc (some (epCanon env (arnCanon env n) m)) 3,
            Event.call 3 svc (some (epCanon env (arnCanon env n) m)) m kw]⟩,
        .ok (env.respond m kw)) := by
    rw [initState_eq]
    rw [show (f : Nat) + 4 = (f + 3) + 1 from rfl]
    rw [api_some_eq (f + 3) env kw hm]
    rw [hsn]
    show (match get_client_by_arguments (f + 3) env
        ⟨catalogOf env, [], [], initClients, [], 3, initTrace⟩ m (some n)
        (alookup kw "StreamARN") with
      | (st', Except.error e) => (st', Except.error e)
      | (st', Except.ok client) =>
          ({ st' with trace := st'.trace ++
              [Event.call client.id client.service client.endpoint_url m kw] },
            Except.ok (env.respond m kw))) = _
    rw [hgcba]
    simp [List.append_assoc]
  rw [happ]
  exact ⟨rfl, rfl⟩

/-- Dispatching a data-plane operation with a truthy `StreamARN` (and falsy
`StreamName`) on a fresh facade: no describe call, one `get_data_endpoint`
call with the supplied ARN, one client construction bound to the resolved
endpoint, and the forwarded call, in that order. -/
theorem dispatch_data_fresh_arn (env : Env) (f : Nat) {svc m a : String} {kw : Kwargs}
    (hm : alookup (catalogOf env) m = some svc)
    (hsvc : svc ∈ DATA_SERVICES)
    (hde : alookup (catalogOf env) "get_data_endpoint" = some "kinesisvideo")
    (hsn : truthy (alookup kw "StreamName") = false)
    (hsa : alookup kw "StreamARN" = some a)
    (ha : a ≠ "") :
    (api_call (f + 4) env (initState env) m kw).2 = .ok (env.respond m kw) ∧
    (api_call (f + 4) env (initState env) m kw).1.trace =
      initTrace ++
        [Event.call 0 "kinesisvideo" none "get_data_endpoint"
            [("StreamARN", a), ("APIName", pyUpper m)],
          Event.construct svc (some (epCanon env a m)) 3,
          Event.call 3 svc (some (epCanon env a m)) m kw] := by
  have hs : ¬ svc ∉ DATA_SERVICES := not_not_intro hsvc
  have hta : truthy (some a) = true := by simp [truthy, ha]
  have hx : (truthy (alookup kw "StreamName") ^^ truthy (some a)) = true := by
    rw [hsn, hta]
    rfl
  have hnotn : ¬ (truthy (alookup kw "StreamName") = true) := by simp [hsn]
  -- the inner get_data_endpoint dispatch and endpoint caching
  have hep : get_endpoint_for_stream_method (f + 2) env
      ⟨catalogOf env, [], [], initClients, [], 3, initTrace⟩ a m =
      (⟨catalogOf env, [], [((a, m), epCanon env a m)],
          [(("kinesisvideo", none), c0), (("kinesis-video-archived-media", none), c2),
            (("kinesis-video-media", none), c1)],
          [(("get_data_endpoint", none, some a), c0)], 3,
          initTrace ++ [Event.call 0 "kinesisvideo" none "get_data_endpoint"
            [("StreamARN", a), ("APIName", pyUpper m)]]⟩,
        .ok (epCanon env a m)) := by
    rw [show (f : Nat) + 2 = (f + 1) + 1 from rfl]
    rw [@get_endpoint_miss_eq ⟨catalogOf env, [], [], initClients, [], 3, initTrace⟩
      a m (f + 1) env rfl]
    rw [@api_call_control_exact f env ⟨catalogOf env, [], [], initClients, [], 3, initTrace⟩
      "get_data_endpoint" [("StreamARN", a), ("APIName", pyUpper m)] "kinesisvideo" c0
      [(("kinesis-video-archived-media", none), c2), (("kinesis-video-media", none), c1)]
      hde (by decide) rfl rfl]
    rfl
  -- the whole client resolution for the data-plane method
  have hgcba : get_client_by_arguments (f + 3) env
      ⟨catalogOf env, [], [], initClients, [], 3, initTrace⟩ m
      (alookup kw "StreamName") (some a) =
      (⟨catalogOf env, [], [((a, m), epCanon env a m)],
          ((svc, some (epCanon env a m)),
              ⟨3, svc, some (epCanon env a m), svc == "kinesis-video-media"⟩) ::
            [(("kinesisvideo", none), c0), (("kinesis-video-archived-media", none), c2),
              (("kinesis-video-media", none), c1)],
          lruInsert [(("get_data_endpoint", none, some a), c0)]
            (m, alookup kw "StreamName", some a)
            ⟨3, svc, some (epCanon env a m), svc == "kinesis-video-media"⟩,
          4,
          initTrace ++ [Event.call 0 "kinesisvideo" none "get_data_endpoint"
              [("StreamARN", a), ("APIName", pyUpper m)],
            Event.construct svc (some (epCanon env a m)) 3]⟩,
        .ok ⟨3, svc, some (epCanon env a m), svc == "kinesis-video-media"⟩) := by
    rw [show (f : Nat) + 3 = (f + 2) + 1 from rfl]
    rw [@gcba_data_eq ⟨catalogOf env, [], [], initClients, [], 3, initTrace⟩ m
      (alookup kw "StreamName") (some a) svc (f + 2) env rfl hm hs hx]
    rw [if_neg hnotn]
    simp only [Option.getD_some]
    show (match get_endpoint_for_stream_method (f + 2) env
        ⟨catalogOf env, [], [], initClients, [], 3, initTrace⟩ a m with
      | (st2, Except.error e) => (st2, Except.error e)
      | (st2, Except.ok endpoint) =>
          let p := get_client_for_service st2 svc (some endpoint)
          ({ p.1 with argCache :=
              lruInsert p.1.argCache (m, alookup kw "StreamName", some a) p.2 },
            Except.ok p.2)) = _
    rw [hep]
    have hCE : lruExtract
        [(("kinesisvideo", none), c0), (("kinesis-video-archived-media", none), c2),
          (("kinesis-video-media", none), c1)]
        (svc, some (epCanon env a m)) = none := by
      apply lruExtract_eq_none_of_forall
      intro v hv
      simp only [List.mem_cons, List.not_mem_nil, or_false, Prod.mk.injEq] at hv
      rcases hv with ⟨⟨_, h2⟩, _⟩ | ⟨⟨_, h2⟩, _⟩ | ⟨⟨_, h2⟩, _⟩ <;> exact Option.noConfusion h2
    show (let p := (get_client_for_service
        ⟨catalogOf env, [], [((a, m), epCanon env a m)],
          [(("kinesisvideo", none), c0), (("kinesis-video-archived-media", none), c2),
            (("kinesis-video-media", none), c1)],
          [(("get_data_endpoint", none, some a), c0)], 3,
          initTrace ++ [Event.call 0 "kinesisvideo" none "get_data_endpoint"
            [("StreamARN", a), ("APIName", pyUpper m)]]⟩
        svc (some (epCanon env a m)))
      ({ p.1 with argCache :=
          lruInsert p.1.argCache (m, alookup kw "StreamName", some a) p.2 },
        Except.ok p.2)) = _
    unfold get_client_for_service
    rw [hCE]
    simp [List.append_assoc, maxsize]
  -- assembling the dispatch itself
  have happ : api_call (f + 4) env (initState env) m kw =
      (⟨catalogOf env, [], [((a, m), epCanon env a m)],
          ((svc, some (epCanon env a m)),
              ⟨3, svc, some (epCanon env a m), svc == "kinesis-video-media"⟩) ::
            [(("kinesisvideo", none), c0), (("kinesis-video-archived-media", none), c2),
              (("kinesis-video-media", none), c1)],
          lruInsert [(("get_data_endpoint", none, some a), c0)]
            (m, alookup kw "StreamName", some a)
            ⟨3, svc, some (epCanon env a m), svc == "kinesis-video-media"⟩,
          4,
          initTrace ++ [Event.call 0 "kinesisvideo" none "get_data_endpoint"
              [("StreamARN", a), ("APIName", pyUpper m)],
            Event.construct svc (some (epCanon env a m)) 3,
            Event.call 3 svc (some (epCanon env a m)) m kw]⟩,
        .ok (env.respond m kw)) := by
    rw [initState_eq]
    rw [show (f : Nat) + 4 = (f + 3) + 1 from rfl]
    rw [api_some_eq (f + 3) env kw hm]
    rw [hsa]
    show (match get_client_by_arguments (f + 3) env
        ⟨catalogOf env, [], [], initClients, [], 3, initTrace⟩ m
        (alookup kw "StreamName") (some a) with
      | (st', Except.error e) => (st', Except.error e)
      | (st', Except.ok client) =>
          ({ st' with trace := st'.trace ++
              [Event.call client.id client.service client.endpoint_url m kw] },
            Except.ok (env.respond m kw))) = _
    rw [hgcba]
    simp [List.append_assoc]
  rw [happ]
  exact ⟨rfl, rfl⟩

/-! ### Validation errors, resolver behaviour, and call counting -/

/-- Number of forwarded calls of a given operation name in a trace. -/
def countCalls (method : String) (t : List Event) : Nat :=
  t.countP fun e =>
    match e with
    | Event.call _ _ _ m _ => m == method
    | _ => false

theorem countCalls_append (method : String) (t1 t2 : List Event) :
    countCalls method (t1 ++ t2) = countCalls method t1 + countCalls method t2 :=
  List.countP_append _ _ _

/-- In any invariant-satisfying state, dispatching a data-plane operation
whose two reserved arguments are both truthy or both falsy raises
`ParamValidationError` and leaves the state — in particular the trace —
completely unchanged. -/
theorem api_call_invalid {fuel : Nat} {env : Env} {st : KVState} {m : String}
    {kw : Kwargs} {svc : String}
    (hwf : StateWF env st)
    (hm : alookup st.methods m = some svc) (hsvc : svc ∈ DATA_SERVICES)
    (hx : truthy (alookup kw "StreamName") = truthy (alookup kw "StreamARN")) :
    api_call (fuel + 1) env st m kw =
      (st, .error (.paramValidationError
        "One of StreamName or StreamARN must be defined to determine service endpoint")) := by
  have hxf : (truthy (alookup kw "StreamName") ^^ truthy (alookup kw "StreamARN")) = false := by
    rw [hx, Bool.xor_self]
  have hcontains : DATA_SERVICES.contains svc = true := by simpa using hsvc
  have hE : lruExtract st.argCache
      (m, alookup kw "StreamName", alookup kw "StreamARN") = none := by
    apply lruExtract_eq_none_of_forall
    intro v hv
    have h2 := hwf.2.1 _ hv
    simp only [argEntryOK, hm, hcontains, hxf, Bool.not_true, Bool.or_false] at h2
    exact Bool.false_ne_true h2
  rw [api_some_eq fuel env kw hm]
  rw [gcba_invalid_eq fuel env hE hm (not_not_intro hsvc) hxf]

/-- Resolving an uncached `(ARN, method)` pair sends exactly one
`get_data_endpoint` call upstream whose `APIName` is the upper-cased method
name, returns the endpoint of the response, and memoizes it under the exact
`(ARN, method)` pair as given. -/
theorem get_endpoint_resolves {f : Nat} {env : Env} {st : KVState} {a m csvc : String}
    (hM : alookup st.methods "get_data_endpoint" = some csvc)
    (hc : csvc ∉ DATA_SERVICES)
    (hE : alookup st.endpointCache (a, m) = none) :
    (get_endpoint_for_stream_method (f + 2) env st a m).2 = .ok (epCanon env a m) ∧
    alookup (get_endpoint_for_stream_method (f + 2) env st a m).1.endpointCache (a, m) =
      some (epCanon env a m) ∧
    ∃ pre cid cs ce, (get_endpoint_for_stream_method (f + 2) env st a m).1.trace =
      st.trace ++ pre ++ [Event.call cid cs ce "get_data_endpoint"
        [("StreamARN", a), ("APIName", pyUpper m)]] ∧
      (pre = [] ∨ ∃ s e i, pre = [Event.construct s e i]) := by
  have hEx : lruExtract st.endpointCache (a, m) = none :=
    (lruExtract_eq_none_iff _ _).mpr hE
  obtain ⟨pre, cid, cs, ce, st', heq, hmet, harn', hep', htr, hpre⟩ :=
    @api_call_control f env st "get_data_endpoint"
      [("StreamARN", a), ("APIName", pyUpper m)] csvc hM hc
  have hval : get_endpoint_for_stream_method (f + 2) env st a m =
      ({ st' with endpointCache := lruInsert st'.endpointCache (a, m) (epCanon env a m) },
        .ok (epCanon env a m)) := by
    rw [show (f : Nat) + 2 = (f + 1) + 1 from rfl]
    rw [get_endpoint_miss_eq (f + 1) env hEx, heq]
    rfl
  rw [hval]
  refine ⟨rfl, ?_, pre, cid, cs, ce, ?_, hpre⟩
  · exact alookup_lruInsert_of_none _ (hep' ▸ hE)
  · exact htr

/-- Resolving a cached `(ARN, method)` pair returns the cached endpoint and
issues no network call, at any fuel. -/
theorem get_endpoint_cached {fuel : Nat} {env : Env} {st : KVState} {a m w : String}
    (h : alookup st.endpointCache (a, m) = some w) :
    (get_endpoint_for_stream_method fuel env st a m).2 = .ok w ∧
    (get_endpoint_for_stream_method fuel env st a m).1.trace = st.trace :=
  ⟨(get_endpoint_hit fuel env h).1, (get_endpoint_hit fuel env h).2.1⟩

/-- After a successful ARN resolution the resolved value is cached under the
stream name. -/
theorem get_arn_ok_cached {env : Env} {st : KVState} {n : String} {f : Nat} {a : String}
    (hwf : StateWF env st)
    (h1 : (get_arn_for_stream_name f env st n).2 = .ok a) :
    alookup (get_arn_for_stream_name f env st n).1.arnCache n = some a := by
  cases hE : lruExtract st.arnCache n with
  | some p =>
      obtain ⟨w, rest⟩ := p
      rw [get_arn_hit_eq f env hE] at h1 ⊢
      have hw : w = a := by simpa using h1
      subst hw
      simp [alookup]
  | none =>
      cases f with
      | zero =>
          rw [get_arn_fuel0_eq env hE] at h1
          simp at h1
      | succ f' =>
          rw [get_arn_miss_eq f' env hE] at h1 ⊢
          rcases hA : api_call f' env st "describe_stream" [("StreamName", n)] with ⟨st', r⟩
          rw [hA] at h1
          cases r with
          | error e => simp at h1
          | ok response =>
              have ha : response.streamArn = a := by simpa using h1
              show alookup (lruInsert st'.arnCache n response.streamArn) n = some a
              cases hL : alookup st'.arnCache n with
              | none => rw [alookup_lruInsert_of_none _ hL, ha]
              | some w =>
                  have hlru : lruInsert st'.arnCache n response.streamArn = st'.arnCache := by
                    unfold lruInsert
                    rw [hL]
                    rfl
                  rw [hlru, hL]
                  have hp := api_call_preserves env f' st "describe_stream" [("StreamName", n)]
                  rw [hA] at hp
                  have hwf' : StateWF env st' := hp.2.2 hwf
                  obtain ⟨rest, hx2⟩ := lruExtract_of_alookup hL
                  have hwcanon : w = arnCanon env n := hwf'.2.2.1 _ (lruExtract_mem hx2)
                  have hacanon : response.streamArn = arnCanon env n := by
                    rw [api_call_ok_respond
                      (show (api_call f' env st "describe_stream" [("StreamName", n)]).2 =
                        .ok response from by rw [hA])]
                    rfl
                  rw [hwcanon, ← hacanon, ha]

/-- After a successful endpoint resolution the resolved value is cached
under the exact `(ARN, method)` pair. -/
theorem get_endpoint_ok_cached {env : Env} {st : KVState} {a m : String} {f : Nat}
    {w : String}
    (hwf : StateWF env st)
    (h1 : (get_endpoint_for_stream_method f env st a m).2 = .ok w) :
    alookup (get_endpoint_for_stream_method f env st a m).1.endpointCache (a, m) = some w := by
  cases hE : lruExtract st.endpointCache (a, m) with
  | some p =>
      obtain ⟨v, rest⟩ := p
      rw [get_endpoint_hit_eq f env hE] at h1 ⊢
      have hw : v = w := by simpa using h1
      subst hw
      simp [alookup]
  | none =>
      cases f with
      | zero =>
          rw [get_endpoint_fuel0_eq env hE] at h1
          simp at h1
      | succ f' =>
          rw [get_endpoint_miss_eq f' env hE] at h1 ⊢
          rcases hA : api_call f' env st "get_data_endpoint"
              [("StreamARN", a), ("APIName", pyUpper m)] with ⟨st', r⟩
          rw [hA] at h1
          cases r with
          | error e => simp at h1
          | ok response =>
              have ha : response.dataEndpoint = w := by simpa using h1
              show alookup (lruInsert st'.endpointCache (a, m) response.dataEndpoint) (a, m) =
                some w
              cases hL : alookup st'.endpointCache (a, m) with
              | none => rw [alookup_lruInsert_of_none _ hL, ha]
              | some v =>
                  have hlru : lruInsert st'.endpointCache (a, m) response.dataEndpoint =
                      st'.endpointCache := by
                    unfold lruInsert
                    rw [hL]
                    rfl
                  rw [hlru, hL]
                  have hp := api_call_preserves env f' st "get_data_endpoint"
                    [("StreamARN", a), ("APIName", pyUpper m)]
                  rw [hA] at hp
                  have hwf' : StateWF env st' := hp.2.2 hwf
                  obtain ⟨rest, hx2⟩ := lruExtract_of_alookup hL
                  have hvcanon : v = epCanon env a m := hwf'.2.2.2.1 _ (lruExtract_mem hx2)
                  have hacanon : response.dataEndpoint = epCanon env a m := by
                    rw [api_call_ok_respond
                      (show (api_call f' env st "get_data_endpoint"
                          [("StreamARN", a), ("APIName", pyUpper m)]).2 =
                        .ok response from by rw [hA])]
                    rfl
                  rw [hvcanon, ← hacanon, ha]

/-- The ARN resolver issues at most one describe call per invocation (given
that `describe_stream` is catalogued as a control-plane operation). -/
theorem get_arn_describe_count {env : Env} {st : KVState} {n : String} {f : Nat}
    {dsvc : String}
    (hM : alookup st.methods "describe_stream" = some dsvc) (hc : dsvc ∉ DATA_SERVICES) :
    countCalls "describe_stream" (get_arn_for_stream_name f env st n).1.trace ≤
      countCalls "describe_stream" st.trace + 1 := by
  cases hE : lruExtract st.arnCache n with
  | some p =>
      obtain ⟨w, rest⟩ := p
      rw [get_arn_hit_eq f env hE]
      show countCalls "describe_stream" st.trace ≤ _
      exact Nat.le_succ _
  | none =>
      cases f with
      | zero =>
          rw [get_arn_fuel0_eq env hE]
          exact Nat.le_succ _
      | succ f' =>
          cases f' with
          | zero =>
              have hval : get_arn_for_stream_name 1 env st n = (st, .error .outOfFuel) := by
                rw [get_arn_miss_eq 0 env hE, api_fuel0_eq env [("StreamName", n)] hM]
              rw [hval]
              exact Nat.le_succ _
          | succ g =>
              obtain ⟨pre, cid, cs, ce, st', heq, hmet, harn', hep', htr, hpre⟩ :=
                @api_call_control g env st "describe_stream" [("StreamName", n)] dsvc hM hc
              have hval : get_arn_for_stream_name (g + 1 + 1) env st n =
                  ({ st' with arnCache := lruInsert st'.arnCache n (arnCanon env n) },
                    .ok (arnCanon env n)) := by
                rw [get_arn_miss_eq (g + 1) env hE, heq]
                rfl
              rw [hval]
              show countCalls "describe_stream" st'.trace ≤ _
              rw [htr, countCalls_append, countCalls_append]
              have hpre0 : countCalls "describe_stream" pre = 0 := by
                rcases hpre with h | ⟨s2, e2, i2, h⟩ <;> subst h <;> rfl
              have h1 : countCalls "describe_stream"
                  [Event.call cid cs ce "describe_stream" [("StreamName", n)]] = 1 := rfl
              omega

/-- The endpoint resolver issues at most one get-endpoint call per
invocation (given that `get_data_endpoint` is catalogued as a control-plane
operation). -/
theorem get_endpoint_call_count {env : Env} {st : KVState} {a m : String} {f : Nat}
    {esvc : String}
    (hM : alookup st.methods "get_data_endpoint" = some esvc) (hc : esvc ∉ DATA_SERVICES) :
    countCalls "get_data_endpoint" (get_endpoint_for_stream_method f env st a m).1.trace ≤
      countCalls "get_data_endpoint" st.trace + 1 := by
  cases hE : lruExtract st.endpointCache (a, m) with
  | some p =>
      obtain ⟨w, rest⟩ := p
      rw [get_endpoint_hit_eq f env hE]
      show countCalls "get_data_endpoint" st.trace ≤ _
      exact Nat.le_succ _
  | none =>
      cases f with
      | zero =>
          rw [get_endpoint_fuel0_eq env hE]
          exact Nat.le_succ _
      | succ f' =>
          cases f' with
          | zero =>
              have hval : get_endpoint_for_stream_method 1 env st a m =
                  (st, .error .outOfFuel) := by
                rw [get_endpoint_miss_eq 0 env hE,
                  api_fuel0_eq env [("StreamARN", a), ("APIName", pyUpper m)] hM]
              rw [hval]
              exact Nat.le_succ _
          | succ g =>
              obtain ⟨pre, cid, cs, ce, st', heq, hmet, harn', hep', htr, hpre⟩ :=
                @api_call_control g env st "get_data_endpoint"
                  [("StreamARN", a), ("APIName", pyUpper m)] esvc hM hc
              have hval : get_endpoint_for_stream_method (g + 1 + 1) env st a m =
                  ({ st' with endpointCache :=
                      lruInsert st'.endpointCache (a, m) (epCanon env a m) },
                    .ok (epCanon env a m)) := by
                rw [get_endpoint_miss_eq (g + 1) env hE, heq]
                rfl
              rw [hval]
              show countCalls "get_data_endpoint" st'.trace ≤ _
              rw [htr, countCalls_append, countCalls_append]
              have hpre0 : countCalls "get_data_endpoint" pre = 0 := by
                rcases hpre with h | ⟨s2, e2, i2, h⟩ <;> subst h <;> rfl
              have h1 : countCalls "get_data_endpoint"
                  [Event.call cid cs ce "get_data_endpoint"
                    [("StreamARN", a), ("APIName", pyUpper m)]] = 1 := rfl
              omega

/-! ### Reachability -/

/-- States a single facade instance can reach: the freshly constructed state
followed by any sequence of dispatched calls. -/
inductive Reachable (env : Env) : KVState → Prop where
  | init : Reachable env (initState env)
  | step (fuel : Nat) (m : String) (kw : Kwargs) {st : KVState} :
      Reachable env st → Reachable env (api_call fuel env st m kw).1

/-- Every reachable state satisfies the state invariant. -/
theorem reachable_wf {env : Env} {st : KVState} (h : Reachable env st) : StateWF env st := by
  induction h with
  | init => exact stateWF_init env
  | step fuel m kw hr ih => exact (api_call_preserves env fuel _ m kw).2.2 ih

/-- The operation catalog never changes after construction. -/
theorem reachable_methods {env : Env} {st : KVState} (h : Reachable env st) :
    st.methods = catalogOf env := by
  induction h with
  | init => rw [initState_eq]
  | step fuel m kw hr ih => rw [(api_call_preserves env fuel _ m kw).1, ih]

/-! ### Client cache behaviour -/

/-- After any `_get_client_for_service` call the returned client sits at the
most-recently-used head of the client cache under its key. -/
theorem gcfs_head (st : KVState) (s : String) (e : Option String) :
    ∃ X, (get_client_for_service st s e).1.clientCache =
      ((s, e), (get_client_for_service st s e).2) :: X := by
  unfold get_client_for_service
  cases hE : lruExtract st.clientCache (s, e) with
  | none => exact ⟨_, rfl⟩
  | some p =>
      obtain ⟨c, rest⟩ := p
      exact ⟨rest, rfl⟩

/-- A cached (service, endpoint) pair is returned as-is, with no client
construction. -/
theorem gcfs_cached {st : KVState} {s : String} {e : Option String} {c : Client}
    (h : alookup st.clientCache (s, e) = some c) :
    (get_client_for_service st s e).2 = c ∧
    (get_client_for_service st s e).1.trace = st.trace := by
  obtain ⟨rest, hE⟩ := lruExtract_of_alookup h
  unfold get_client_for_service
  rw [hE]
  exact ⟨rfl, rfl⟩

/-- Requesting the same (service, endpoint) pair again returns the same
client instance and performs no construction. -/
theorem gcfs_same_pair (st : KVState) (s : String) (e : Option String) :
    (get_client_for_service (get_client_for_service st s e).1 s e).2 =
      (get_client_for_service st s e).2 ∧
    (get_client_for_service (get_client_for_service st s e).1 s e).1.trace =
      (get_client_for_service st s e).1.trace := by
  obtain ⟨X, hX⟩ := gcfs_head st s e
  have hl : alookup (get_client_for_service st s e).1.clientCache (s, e) =
      some (get_client_for_service st s e).2 := by
    rw [hX]
    simp [alookup]
  exact gcfs_cached hl

/-! ### Claims -/

/-- Claim C1: dispatching a data-plane operation with only the resource-name
reserved argument set performs exactly one control-plane describe call, then
one control-plane get-endpoint call, then one transport-client construction,
then one forwarded operation call, in that order; the describe call returns
identifier `arnCanon env n`, the get-endpoint call returns endpoint
`epCanon env (arnCanon env n) m`, and the forwarded call is issued on the
client bound to that endpoint. -/
theorem claim_C1 (env : Env) (f : Nat) (svc m n : String) (kw : Kwargs)
    (hm : alookup (initState env).methods m = some svc)
    (hsvc : svc ∈ DATA_SERVICES)
    (hds : alookup (initState env).methods "describe_stream" = some "kinesisvideo")
    (hde : alookup (initState env).methods "get_data_endpoint" = some "kinesisvideo")
    (hsn : alookup kw "StreamName" = some n) (hn : n ≠ "")
    (hsa : alookup kw "StreamARN" = none) :
    (api_call (f + 4) env (initState env) m kw).2 = .ok (env.respond m kw) ∧
    (api_call (f + 4) env (initState env) m kw).1.trace =
      (initState env).trace ++
        [Event.call 0 "kinesisvideo" none "describe_stream" [("StreamName", n)],
          Event.call 0 "kinesisvideo" none "get_data_endpoint"
            [("StreamARN", arnCanon env n), ("APIName", pyUpper m)],
          Event.construct svc (some (epCanon env (arnCanon env n) m)) 3,
          Event.call 3 svc (some (epCanon env (arnCanon env n) m)) m kw] := by
  refine dispatch_data_fresh_name env f ?_ hsvc ?_ ?_ hsn hn ?_
  · exact hm
  · exact hds
  · exact hde
  · rw [hsa]
    rfl

theorem claim_C1_witness :
    (api_call (0 + 4) testEnv (initState testEnv) "get_media"
        [("StreamName", "teststream")]).2 =
      .ok (testEnv.respond "get_media" [("StreamName", "teststream")]) ∧
    (api_call (0 + 4) testEnv (initState testEnv) "get_media"
        [("StreamName", "teststream")]).1.trace =
      (initState testEnv).trace ++
        [Event.call 0 "kinesisvideo" none "describe_stream"
            [("StreamName", "teststream")],
          Event.call 0 "kinesisvideo" none "get_data_endpoint"
            [("StreamARN", arnCanon testEnv "teststream"), ("APIName", pyUpper "get_media")],
          Event.construct "kinesis-video-media"
            (some (epCanon testEnv (arnCanon testEnv "teststream") "get_media")) 3,
          Event.call 3 "kinesis-video-media"
            (some (epCanon testEnv (arnCanon testEnv "teststream") "get_media"))
            "get_media" [("StreamName", "teststream")]] :=
  claim_C1 testEnv 0 "kinesis-video-media" "get_media" "teststream"
    [("StreamName", "teststream")] (by decide) (by decide) (by decide) (by decide)
    (by decide) (by decide) (by decide)

/-- Claim C2: dispatching a data-plane operation with both reserved
arguments truthy, or with neither truthy, raises `ParamValidationError` and
returns the state completely unchanged — in particular the trace is
unchanged, so no describe, get-endpoint or forwarded call happens. -/
theorem claim_C2 (env : Env) (st : KVState) (fuel : Nat) (m svc : String) (kw : Kwargs)
    (hwf : StateWF env st)
    (hm : alookup st.methods m = some svc) (hsvc : svc ∈ DATA_SERVICES)
    (hboth : truthy (alookup kw "StreamName") = truthy (alookup kw "StreamARN")) :
    api_call (fuel + 1) env st m kw =
      (st, .error (.paramValidationError
        "One of StreamName or StreamARN must be defined to determine service endpoint")) :=
  api_call_invalid hwf hm hsvc hboth

theorem claim_C2_witness :
    api_call (0 + 1) testEnv (initState testEnv) "get_media"
        [("StreamName", "a"), ("StreamARN", "b")] =
      (initState testEnv, .error (.paramValidationError
        "One of StreamName or StreamARN must be defined to determine service endpoint")) :=
  claim_C2 testEnv (initState testEnv) 0 "get_media" "kinesis-video-media"
    [("StreamName", "a"), ("StreamARN", "b")] (stateWF_init testEnv) (by decide)
    (by decide) (by decide)

/-- Claim C3: resolving an uncached (identifier, operation) pair sends the
operation name upper-cased in the `APIName` field of the upstream
get-endpoint call, whatever the input case, and memoizes the result under
the exact (identifier, operation) pair as given; a cached pair is answered
from the cache with no upstream call. -/
theorem claim_C3 (env : Env) (st : KVState) (f g : Nat) (a m csvc : String)
    (hM : alookup st.methods "get_data_endpoint" = some csvc)
    (hc : csvc ∉ DATA_SERVICES) :
    (alookup st.endpointCache (a, m) = none →
      (get_endpoint_for_stream_method (f + 2) env st a m).2 = .ok (epCanon env a m) ∧
      alookup (get_endpoint_for_stream_method (f + 2) env st a m).1.endpointCache (a, m) =
        some (epCanon env a m) ∧
      ∃ pre cid cs ce, (get_endpoint_for_stream_method (f + 2) env st a m).1.trace =
        st.trace ++ pre ++ [Event.call cid cs ce "get_data_endpoint"
          [("StreamARN", a), ("APIName", pyUpper m)]] ∧
        (pre = [] ∨ ∃ s2 e2 i2, pre = [Event.construct s2 e2 i2])) ∧
    (∀ w, alookup st.endpointCache (a, m) = some w →
      (get_endpoint_for_stream_method g env st a m).2 = .ok w ∧
      (get_endpoint_for_stream_method g env st a m).1.trace = st.trace) :=
  ⟨fun hE => get_endpoint_resolves hM hc hE, fun _ hw => get_endpoint_cached hw⟩

theorem claim_C3_witness :
    (get_endpoint_for_stream_method (0 + 2) testEnv (initState testEnv)
        "arn:x" "get_media").2 = .ok (epCanon testEnv "arn:x" "get_media") ∧
    alookup (get_endpoint_for_stream_method (0 + 2) testEnv (initState testEnv)
        "arn:x" "get_media").1.endpointCache ("arn:x", "get_media") =
      some (epCanon testEnv "arn:x" "get_media") ∧
    ∃ pre cid cs ce, (get_endpoint_for_stream_method (0 + 2) testEnv (initState testEnv)
        "arn:x" "get_media").1.trace =
      (initState testEnv).trace ++ pre ++ [Event.call cid cs ce "get_data_endpoint"
        [("StreamARN", "arn:x"), ("APIName", pyUpper "get_media")]] ∧
      (pre = [] ∨ ∃ s2 e2 i2, pre = [Event.construct s2 e2 i2]) :=
  (claim_C3 testEnv (initState testEnv) 0 0 "arn:x" "get_media" "kinesisvideo"
    (by decide) (by decide)).1 (by decide)

/-- Claim C4: after a successful resolution, calling the ARN resolver again
with the same name is answered from the cache — identical value, no new
trace event — and one resolver invocation issues at most one describe call;
likewise for the endpoint resolver with the same (identifier, operation)
pair and its get-endpoint call. -/
theorem claim_C4 (env : Env) (st : KVState) (f g : Nat) (n a m arnv epv : String)
    (dsvc esvc : String)
    (hwf : StateWF env st)
    (hds : alookup st.methods "describe_stream" = some dsvc) (hdc : dsvc ∉ DATA_SERVICES)
    (hde : alookup st.methods "get_data_endpoint" = some esvc)
    (hec : esvc ∉ DATA_SERVICES) :
    ((get_arn_for_stream_name f env st n).2 = .ok arnv →
      (get_arn_for_stream_name g env (get_arn_for_stream_name f env st n).1 n).2 =
        .ok arnv ∧
      (get_arn_for_stream_name g env (get_arn_for_stream_name f env st n).1 n).1.trace =
        (get_arn_for_stream_name f env st n).1.trace) ∧
    countCalls "describe_stream" (get_arn_for_stream_name f env st n).1.trace ≤
      countCalls "describe_stream" st.trace + 1 ∧
    ((get_endpoint_for_stream_method f env st a m).2 = .ok epv →
      (get_endpoint_for_stream_method g env
          (get_endpoint_for_stream_method f env st a m).1 a m).2 = .ok epv ∧
      (get_endpoint_for_stream_method g env
          (get_endpoint_for_stream_method f env st a m).1 a m).1.trace =
        (get_endpoint_for_stream_method f env st a m).1.trace) ∧
    countCalls "get_data_endpoint"
        (get_endpoint_for_stream_method f env st a m).1.trace ≤
      countCalls "get_data_endpoint" st.trace + 1 := by
  refine ⟨fun h1 => ?_, get_arn_describe_count hds hdc, fun h1 => ?_,
    get_endpoint_call_count hde hec⟩
  · have hc := get_arn_ok_cached hwf h1
    exact ⟨(get_arn_hit g env hc).1, (get_arn_hit g env hc).2.1⟩
  · have hc := get_endpoint_ok_cached hwf h1
    exact ⟨(get_endpoint_hit g env hc).1, (get_endpoint_hit g env hc).2.1⟩

theorem claim_C4_witness :
    ((get_arn_for_stream_name 0 testEnv
        (get_arn_for_stream_name 2 testEnv (initState testEnv) "teststream").1
        "teststream").2 = .ok "arn:x" ∧
      (get_arn_for_stream_name 0 testEnv
          (get_arn_for_stream_name 2 testEnv (initState testEnv) "teststream").1
          "teststream").1.trace =
        (get_arn_for_stream_name 2 testEnv (initState testEnv) "teststream").1.trace) ∧
    countCalls "describe_stream"
        (get_arn_for_stream_name 2 testEnv (initState testEnv) "teststream").1.trace ≤
      countCalls "describe_stream" (initState testEnv).trace + 1 := by
  have h := claim_C4 testEnv (initState testEnv) 2 0 "teststream" "arn:x" "get_media"
    "arn:x" "https://ep" "kinesisvideo" "kinesisvideo" (stateWF_init testEnv) (by decide)
    (by decide) (by decide) (by decide)
  exact ⟨h.1 (by decide), h.2.1⟩

/-- Claim C5: requesting a transport client twice for the same
(service, endpoint) pair returns the same client instance with no new
construction; requesting two different endpoints of the same service —
including the distinct no-endpoint-override key `none` — returns distinct
instances. -/
theorem claim_C5 (st : KVState) (s : String) (e1 e2 : Option String)
    (hwf : ∀ x ∈ st.clientCache, clientEntryOK x) :
    ((get_client_for_service (get_client_for_service st s e1).1 s e1).2 =
        (get_client_for_service st s e1).2 ∧
      (get_client_for_service (get_client_for_service st s e1).1 s e1).1.trace =
        (get_client_for_service st s e1).1.trace) ∧
    (e1 ≠ e2 →
      (get_client_for_service (get_client_for_service st s e1).1 s e2).2 ≠
        (get_client_for_service st s e1).2) := by
  constructor
  · exact gcfs_same_pair st s e1
  · intro hne heq
    have h1 := gcfs_client hwf s e1
    have hwf1 := gcfs_clientCacheWF hwf s e1
    have h2 := gcfs_client hwf1 s e2
    rw [heq] at h2
    exact hne (h1.2 ▸ h2.2)

theorem claim_C5_witness :
    ((get_client_for_service
        (get_client_for_service (initState testEnv) "kinesis-video-media" none).1
        "kinesis-video-media" none).2 =
      (get_client_for_service (initState testEnv) "kinesis-video-media" none).2 ∧
      (get_client_for_service
          (get_client_for_service (initState testEnv) "kinesis-video-media" none).1
          "kinesis-video-media" none).1.trace =
        (get_client_for_service (initState testEnv) "kinesis-video-media" none).1.trace) ∧
    (get_client_for_service
        (get_client_for_service (initState testEnv) "kinesis-video-media" none).1
        "kinesis-video-media" (some "https://ep")).2 ≠
      (get_client_for_service (initState testEnv) "kinesis-video-media" none).2 := by
  have h := claim_C5 (initState testEnv) "kinesis-video-media" none (some "https://ep")
    (by decide)
  exact ⟨h.1, h.2 (by decide)⟩

/-- Claim C6: dispatching an operation name absent from the catalog raises
the unknown-attribute error — a distinguished error constructor, not a
transport failure — and returns the state unchanged, so no network call is
performed. -/
theorem claim_C6 (env : Env) (st : KVState) (fuel : Nat) (m : String) (kw : Kwargs)
    (hM : alookup st.methods m = none) :
    api_call fuel env st m kw = (st, .error (.attributeError m)) :=
  api_attr_eq fuel env kw hM

theorem claim_C6_witness :
    api_call 4 testEnv (initState testEnv) "NotARealOperation" [] =
      (initState testEnv, .error (.attributeError "NotARealOperation")) :=
  claim_C6 testEnv (initState testEnv) 4 "NotARealOperation" [] (by decide)

/-- Claim C7: every successfully dispatched operation forwards the original
kwargs unmodified — the forwarded call event carries exactly the kwargs the
caller supplied, reserved keys included — and the response is the upstream
response to exactly those kwargs. -/
theorem claim_C7 (env : Env) (st : KVState) (fuel : Nat) (m : String) (kw : Kwargs)
    (r : Response) (h : (api_call fuel env st m kw).2 = .ok r) :
    r = env.respond m kw ∧
    ∃ pre cid cs ce, (api_call fuel env st m kw).1.trace =
      st.trace ++ pre ++ [Event.call cid cs ce m kw] := by
  refine ⟨api_call_ok_respond h, ?_⟩
  cases fuel with
  | zero =>
      rw [api_call_eq] at h
      split at h
      · simp at h
      · simp at h
  | succ f =>
      cases hM : alookup st.methods m with
      | none =>
          rw [api_attr_eq (f + 1) env kw hM] at h
          simp at h
      | some svc =>
          rw [api_some_eq f env kw hM] at h ⊢
          rcases hG : get_client_by_arguments f env st m
              (alookup kw "StreamName") (alookup kw "StreamARN") with ⟨st', rr⟩
          rw [hG] at h
          cases rr with
          | error e => simp at h
          | ok client =>
              obtain ⟨t, ht⟩ := ((preserves_all env f).2.2.1 st m
                (alookup kw "StreamName") (alookup kw "StreamARN")).2.1
              rw [hG] at ht
              refine ⟨t, client.id, client.service, client.endpoint_url, ?_⟩
              show st'.trace ++ [Event.call client.id client.service client.endpoint_url m kw] =
                st.trace ++ t ++ [Event.call client.id client.service client.endpoint_url m kw]
              rw [ht]

theorem claim_C7_witness :
    testEnv.respond "get_media" [("StreamName", "teststream"), ("Extra", "v")] =
      testEnv.respond "get_media" [("StreamName", "teststream"), ("Extra", "v")] ∧
    ∃ pre cid cs ce,
      (api_call 4 testEnv (initState testEnv) "get_media"
          [("StreamName", "teststream"), ("Extra", "v")]).1.trace =
        (initState testEnv).trace ++ pre ++
          [Event.call cid cs ce "get_media"
            [("StreamName", "teststream"), ("Extra", "v")]] := by
  have h := claim_C7 testEnv (initState testEnv) 4 "get_media"
    [("StreamName", "teststream"), ("Extra", "v")]
    (testEnv.respond "get_media" [("StreamName", "teststream"), ("Extra", "v")])
    (by decide)
  exact ⟨rfl, h.2⟩

/-- Claim C9: with `put_media` not shadowed by the later-registered
archived-media service, the catalog of a fresh facade maps `put_media` to
`kinesis-video-media`, and dispatching it with a resource name runs the
same describe / get-endpoint / bound-client / forward path as any other
data-plane operation. -/
theorem claim_C9 (env : Env) (f : Nat) (n : String) (kw : Kwargs)
    (hput : "put_media" ∉ env.baseMethods "kinesis-video-archived-media")
    (hds : alookup (initState env).methods "describe_stream" = some "kinesisvideo")
    (hde : alookup (initState env).methods "get_data_endpoint" = some "kinesisvideo")
    (hsn : alookup kw "StreamName" = some n) (hn : n ≠ "")
    (hsa : alookup kw "StreamARN" = none) :
    alookup (initState env).methods "put_media" = some "kinesis-video-media" ∧
    (api_call (f + 4) env (initState env) "put_media" kw).2 =
      .ok (env.respond "put_media" kw) ∧
    (api_call (f + 4) env (initState env) "put_media" kw).1.trace =
      (initState env).trace ++
        [Event.call 0 "kinesisvideo" none "describe_stream" [("StreamName", n)],
          Event.call 0 "kinesisvideo" none "get_data_endpoint"
            [("StreamARN", arnCanon env n), ("APIName", pyUpper "put_media")],
          Event.construct "kinesis-video-media"
            (some (epCanon env (arnCanon env n) "put_media")) 3,
          Event.call 3 "kinesis-video-media"
            (some (epCanon env (arnCanon env n) "put_media")) "put_media" kw] := by
  have hcat : alookup (catalogOf env) "put_media" = some "kinesis-video-media" :=
    alookup_catalogOf_put_media env hput
  have h := dispatch_data_fresh_name env f hcat (by decide) hds hde hsn hn
    (by rw [hsa]; rfl)
  exact ⟨hcat, h.1, h.2⟩

theorem claim_C9_witness :
    alookup (initState testEnv).methods "put_media" = some "kinesis-video-media" ∧
    (api_call (0 + 4) testEnv (initState testEnv) "put_media"
        [("StreamName", "teststream")]).2 =
      .ok (testEnv.respond "put_media" [("StreamName", "teststream")]) ∧
    (api_call (0 + 4) testEnv (initState testEnv) "put_media"
        [("StreamName", "teststream")]).1.trace =
      (initState testEnv).trace ++
        [Event.call 0 "kinesisvideo" none "describe_stream"
            [("StreamName", "teststream")],
          Event.call 0 "kinesisvideo" none "get_data_endpoint"
            [("StreamARN", arnCanon testEnv "teststream"), ("APIName", pyUpper "put_media")],
          Event.construct "kinesis-video-media"
            (some (epCanon testEnv (arnCanon testEnv "teststream") "put_media")) 3,
          Event.call 3 "kinesis-video-media"
            (some (epCanon testEnv (arnCanon testEnv "teststream") "put_media"))
            "put_media" [("StreamName", "teststream")]] :=
  claim_C9 testEnv 0 "teststream" [("StreamName", "teststream")] (by decide) (by decide)
    (by decide) (by decide) (by decide) (by decide)

/-- Claim C10: presence of the reserved arguments is judged by truthiness,
not key presence: an empty-string `StreamName` with a non-empty `StreamARN`
raises no error and the ARN alone determines the endpoint; a non-empty
`StreamName` with an empty-string `StreamARN` resolves through the name; and
both keys empty-string raise `ParamValidationError` exactly as if neither
were supplied. -/
theorem claim_C10 :
    (∀ (env : Env) (f : Nat) (svc m a : String) (kw : Kwargs),
      alookup (initState env).methods m = some svc → svc ∈ DATA_SERVICES →
      alookup (initState env).methods "get_data_endpoint" = some "kinesisvideo" →
      alookup kw "StreamName" = some "" → alookup kw "StreamARN" = some a → a ≠ "" →
      (api_call (f + 4) env (initState env) m kw).2 = .ok (env.respond m kw) ∧
      (api_call (f + 4) env (initState env) m kw).1.trace =
        (initState env).trace ++
          [Event.call 0 "kinesisvideo" none "get_data_endpoint"
              [("StreamARN", a), ("APIName", pyUpper m)],
            Event.construct svc (some (epCanon env a m)) 3,
            Event.call 3 svc (some (epCanon env a m)) m kw]) ∧
    (∀ (env : Env) (f : Nat) (svc m n : String) (kw : Kwargs),
      alookup (initState env).methods m = some svc → svc ∈ DATA_SERVICES →
      alookup (initState env).methods "describe_stream" = some "kinesisvideo" →
      alookup (initState env).methods "get_data_endpoint" = some "kinesisvideo" →
      alookup kw "StreamName" = some n → n ≠ "" → alookup kw "StreamARN" = some "" →
      (api_call (f + 4) env (initState env) m kw).2 = .ok (env.respond m kw) ∧
      (api_call (f + 4) env (initState env) m kw).1.trace =
        (initState env).trace ++
          [Event.call 0 "kinesisvideo" none "describe_stream" [("StreamName", n)],
            Event.call 0 "kinesisvideo" none "get_data_endpoint"
              [("StreamARN", arnCanon env n), ("APIName", pyUpper m)],
            Event.construct svc (some (epCanon env (arnCanon env n) m)) 3,
            Event.call 3 svc (some (epCanon env (arnCanon env n) m)) m kw]) ∧
    (∀ (env : Env) (st : KVState) (fuel : Nat) (m svc : String) (kw : Kwargs),
      StateWF env st → alookup st.methods m = some svc → svc ∈ DATA_SERVICES →
      alookup kw "StreamName" = some "" → alookup kw "StreamARN" = some "" →
      api_call (fuel + 1) env st m kw =
        (st, .error (.paramValidationError
          "One of StreamName or StreamARN must be defined to determine service endpoint"))) := by
  refine ⟨?_, ?_, ?_⟩
  · intro env f svc m a kw hm hsvc hde hsn hsa ha
    exact dispatch_data_fresh_arn env f hm hsvc hde (by rw [hsn]; rfl) hsa ha
  · intro env f svc m n kw hm hsvc hds hde hsn hn hsa
    exact dispatch_data_fresh_name env f hm hsvc hds hde hsn hn (by rw [hsa]; rfl)
  · intro env st fuel m svc kw hwf hm hsvc hsn hsa
    exact api_call_invalid hwf hm hsvc (by rw [hsn, hsa])

theorem claim_C10_witness :
    ((api_call (0 + 4) testEnv (initState testEnv) "get_media"
        [("StreamName", ""), ("StreamARN", "arn:x")]).2 =
      .ok (testEnv.respond "get_media" [("StreamName", ""), ("StreamARN", "arn:x")]) ∧
      (api_call (0 + 4) testEnv (initState testEnv) "get_media"
          [("StreamName", ""), ("StreamARN", "arn:x")]).1.trace =
        (initState testEnv).trace ++
          [Event.call 0 "kinesisvideo" none "get_data_endpoint"
              [("StreamARN", "arn:x"), ("APIName", pyUpper "get_media")],
            Event.construct "kinesis-video-media"
              (some (epCanon testEnv "arn:x" "get_media")) 3,
            Event.call 3 "kinesis-video-media" (some (epCanon testEnv "arn:x" "get_media"))
              "get_media" [("StreamName", ""), ("StreamARN", "arn:x")]]) ∧
    api_call (0 + 1) testEnv (initState testEnv) "get_media"
        [("StreamName", ""), ("StreamARN", "")] =
      (initState testEnv, .error (.paramValidationError
        "One of StreamName or StreamARN must be defined to determine service endpoint")) :=
  ⟨claim_C10.1 testEnv 0 "kinesis-video-media" "get_media" "arn:x"
      [("StreamName", ""), ("StreamARN", "arn:x")] (by decide) (by decide) (by decide)
      (by decide) (by decide) (by decide),
    claim_C10.2.2 testEnv (initState testEnv) 0 "get_media" "kinesis-video-media"
      [("StreamName", ""), ("StreamARN", "")] (stateWF_init testEnv) (by decide)
      (by decide) (by decide) (by decide)⟩

/-- Claim C8 (amended): the operation catalog is populated eagerly at
construction and never modified afterwards; the memoizing caches are lazy
LRU caches bounded at 128 entries (the `functools.lru_cache()` default):
while an entry is present, looking up its key returns the cached value
without any new upstream call, never invalidated, and every dispatched call
preserves the state invariant including the 128-entry bounds — but a 129th
distinct key evicts the least-recently-used entry (see the
counterexample). -/
theorem claim_C8_amended :
    (∀ env : Env, (initState env).methods = catalogOf env) ∧
    (∀ (env : Env) (fuel : Nat) (st : KVState) (m : String) (kw : Kwargs),
      (api_call fuel env st m kw).1.methods = st.methods) ∧
    (∀ (env : Env) (fuel : Nat) (st : KVState) (m : String) (kw : Kwargs),
      StateWF env st → StateWF env (api_call fuel env st m kw).1) ∧
    (∀ (env : Env) (fuel : Nat) (st : KVState) (n w : String),
      alookup st.arnCache n = some w →
      (get_arn_for_stream_name fuel env st n).2 = .ok w ∧
      (get_arn_for_stream_name fuel env st n).1.trace = st.trace) ∧
    (∀ (env : Env) (fuel : Nat) (st : KVState) (a m w : String),
      alookup st.endpointCache (a, m) = some w →
      (get_endpoint_for_stream_method fuel env st a m).2 = .ok w ∧
      (get_endpoint_for_stream_method fuel env st a m).1.trace = st.trace) ∧
    (∀ (st : KVState) (s : String) (e : Option String) (c : Client),
      alookup st.clientCache (s, e) = some c →
      (get_client_for_service st s e).2 = c ∧
      (get_client_for_service st s e).1.trace = st.trace) := by
  refine ⟨?_, ?_, ?_, ?_, ?_, ?_⟩
  · intro env
    rw [initState_eq]
  · intro env fuel st m kw
    exact (api_call_preserves env fuel st m kw).1
  · intro env fuel st m kw hwf
    exact (api_call_preserves env fuel st m kw).2.2 hwf
  · intro env fuel st n w h
    exact ⟨(get_arn_hit fuel env h).1, (get_arn_hit fuel env h).2.1⟩
  · intro env fuel st a m w h
    exact ⟨(get_endpoint_hit fuel env h).1, (get_endpoint_hit fuel env h).2.1⟩
  · intro st s e c h
    exact gcfs_cached h

theorem claim_C8_amended_witness :
    (api_call 4 testEnv (initState testEnv) "get_media"
        [("StreamName", "teststream")]).1.methods = (initState testEnv).methods ∧
    ((get_arn_for_stream_name 0 testEnv
        (get_arn_for_stream_name 2 testEnv (initState testEnv) "teststream").1
        "teststream").2 = .ok "arn:x" ∧
      (get_arn_for_stream_name 0 testEnv
          (get_arn_for_stream_name 2 testEnv (initState testEnv) "teststream").1
          "teststream").1.trace =
        (get_arn_for_stream_name 2 testEnv (initState testEnv) "teststream").1.trace) :=
  ⟨claim_C8_amended.2.1 testEnv 4 (initState testEnv) "get_media"
      [("StreamName", "teststream")],
    claim_C8_amended.2.2.2.1 testEnv 0
      (get_arn_for_stream_name 2 testEnv (initState testEnv) "teststream").1
      "teststream" "arn:x" (by decide)⟩

/-- The facade state after resolving 129 distinct stream names
`s0 … s128` on a fresh facade: one more than `lru_cache`'s default
128-entry capacity. -/
def evictedState : KVState :=
  (List.range 129).foldl
    (fun st i => (get_arn_for_stream_name 2 testEnv st ("s" ++ toString i)).1)
    (initState testEnv)

/-- Claim C8 counterexample: the operation catalog is already populated at
construction (so it is not populated lazily), and the name-to-identifier
cache is not never-evicted: `s0` is cached right after its resolution, but
after 128 further distinct resolutions its entry is gone, and resolving
`s0` again issues a new upstream describe call (the trace grows by one
event) instead of returning the cached value. -/
theorem claim_C8_counterexample :
    alookup (initState testEnv).methods "list_streams" = some "kinesisvideo" ∧
    alookup (get_arn_for_stream_name 2 testEnv (initState testEnv) "s0").1.arnCache "s0" =
      some "arn:x" ∧
    alookup evictedState.arnCache "s0" = none ∧
    (get_arn_for_stream_name 2 testEnv evictedState "s0").1.trace.length =
      evictedState.trace.length + 1 := by
  decide

end KinesisVideo
